import Mathlib

/-!
Shallow embedding of the YKS exam-tracking analytics engine
(`src/analysis/net_analyzer.py`, `src/analysis/topic_analyzer.py`,
thresholds from `src/config.py`).

Conventions of the embedding:
* pandas `DataFrame` → `DataFrame` below: a list of column names plus a
  list of rows; a cell is `Option ℚ` (`none` = NaN / absent), a
  topic-list cell is `Option (List String)`.
* floats → `ℚ`; float formulas are carried over verbatim.
* `scipy.stats.linregress` slope / intercept / r² are rational functions
  of the data and are embedded exactly; the p-value and standard error
  are transcendental (t-distribution CDF, square root), so every
  function that reads them takes explicit parameters
  `pfun sefun : List ℚ → ℚ` standing for scipy's p-value and standard
  error on the (date-sorted, NaN-dropped) data.
* `data.std()` (sample standard deviation) is irrational; the record
  stores the sample variance (`none` when pandas would produce NaN,
  i.e. fewer than 2 observations), and statements about the coefficient
  of variation quantify over a value `sd` with `sd * sd = variance`.
* Python dicts keyed by strings → association lists in insertion order;
  a method that can raise (`identify_weak_subjects` hits a `KeyError`
  when the statistics table is empty) returns `Except String _`.
-/

namespace YKS

/-! ### Generic helpers (string containment, Python `str.replace`) -/

def startsWithSeq : List Char → List Char → Bool
  | [], _ => true
  | _ :: _, [] => false
  | p :: ps, c :: cs => p == c && startsWithSeq ps cs

def containsSeq (pat : List Char) : List Char → Bool
  | [] => startsWithSeq pat []
  | c :: cs => startsWithSeq pat (c :: cs) || containsSeq pat cs

/-- Python's `pat in s` substring test. -/
def nameContains (s pat : String) : Bool :=
  containsSeq pat.data s.data

def replaceFuel (pat rep : List Char) : ℕ → List Char → List Char
  | 0, s => s
  | _ + 1, [] => []
  | fuel + 1, c :: rest =>
    if pat ≠ [] ∧ startsWithSeq pat (c :: rest) then
      rep ++ replaceFuel pat rep fuel (List.drop (pat.length - 1) rest)
    else
      c :: replaceFuel pat rep fuel rest

/-- Python's `s.replace(pat, rep)` (all non-overlapping occurrences,
left to right). -/
def pyReplace (s pat rep : String) : String :=
  String.mk (replaceFuel pat.data rep.data s.data.length s.data)

/-! ### Rational list statistics (pandas semantics) -/

def listMean (l : List ℚ) : ℚ := l.sum / l.length

def listMin : List ℚ → ℚ
  | [] => 0
  | x :: xs => xs.foldl min x

def listMax : List ℚ → ℚ
  | [] => 0
  | x :: xs => xs.foldl max x

/-- Sample variance with `ddof = 1`, the square of `pandas.Series.std()`.
Only meaningful for lists of length ≥ 2 (pandas yields NaN below that). -/
def sampleVar (l : List ℚ) : ℚ :=
  (l.map (fun y => (y - listMean l) ^ 2)).sum / ((l.length : ℚ) - 1)

/-- Linear interpolation of the sorted sample `s` at fractional
position `pos` (numpy-style `lower + fraction * (upper - lower)`). -/
def interpAt (s : List ℚ) (pos : ℚ) : ℚ :=
  let i : ℕ := (Int.floor pos).toNat
  let g : ℚ := pos - (i : ℚ)
  let a := s.getD i 0
  let b := s.getD (i + 1) a
  a + g * (b - a)

/-- `pandas.Series.quantile(p)` with the default linear interpolation;
`median()` is `quantile (1/2)`. -/
def pandasQuantile (l : List ℚ) (p : ℚ) : ℚ :=
  let s := List.insertionSort (fun a b : ℚ => a ≤ b) l
  if s.length = 0 then 0
  else interpAt s (p * ((s.length : ℚ) - 1))

/-! ### The table model -/

/-- One exam record: the `Tarih` (date) cell, the `Deneme Adı` (exam
name) cell, the numeric cells and the topic-list cells, both keyed by
column name. -/
structure Row where
  tarih : ℤ
  dname : String
  cells : List (String × Option ℚ)
  tlists : List (String × Option (List String))
deriving DecidableEq

structure DataFrame where
  cols : List String
  rows : List Row
deriving DecidableEq

/-- Association-list lookup, first match wins (Python dict access). -/
def alookup {α β : Type} [DecidableEq α] : List (α × β) → α → Option β
  | [], _ => none
  | (k, v) :: rest, key => if k = key then some v else alookup rest key

def getCell (r : Row) (name : String) : Option ℚ :=
  (alookup r.cells name).join

def getTList (r : Row) (name : String) : Option (List String) :=
  (alookup r.tlists name).join

/-- `df.sort_values('Tarih')`. -/
def sortRows (rs : List Row) : List Row :=
  List.insertionSort (fun a b : Row => a.tarih ≤ b.tarih) rs

/-- Column extraction in stored row order followed by `dropna()`
(as in `calculate_statistics`, which does not sort). -/
def dataOf (df : DataFrame) (subject : String) : List ℚ :=
  df.rows.filterMap (fun r => getCell r subject)

/-- Column extraction after `sort_values('Tarih')` followed by
`dropna()` (as in `get_progression_trend`). -/
def sortedDataOf (df : DataFrame) (subject : String) : List ℚ :=
  (sortRows df.rows).filterMap (fun r => getCell r subject)

/-! ### Config thresholds (`src/config.py`, `Config.Analysis`) -/

namespace Config.Analysis

def TREND_P_VALUE_THRESHOLD : ℚ := 5 / 100

def TREND_STRONG_SLOPE : ℚ := 5 / 10

def TREND_LIGHT_SLOPE : ℚ := 1 / 10

end Config.Analysis

/-! ### Ordinary least squares over `x = 0, 1, ..., n-1` -/

def olsXs (n : ℕ) : List ℚ := (List.range n).map (fun i => (i : ℚ))

def olsSlope (ys : List ℚ) : ℚ :=
  let n : ℚ := ys.length
  let xs := olsXs ys.length
  let sx := xs.sum
  let sy := ys.sum
  let sxx := (xs.map (fun x => x * x)).sum
  let sxy := (List.zipWith (fun x y => x * y) xs ys).sum
  (n * sxy - sx * sy) / (n * sxx - sx * sx)

def olsIntercept (ys : List ℚ) : ℚ :=
  let n : ℚ := ys.length
  let xs := olsXs ys.length
  (ys.sum - olsSlope ys * xs.sum) / n

/-- `r_value ** 2` of `linregress`; division by zero yields 0 in `ℚ`,
which matches scipy returning `r = 0` for zero variance. -/
def olsRSquared (ys : List ℚ) : ℚ :=
  let n : ℚ := ys.length
  let xs := olsXs ys.length
  let sx := xs.sum
  let sy := ys.sum
  let sxx := (xs.map (fun x => x * x)).sum
  let syy := (ys.map (fun y => y * y)).sum
  let sxy := (List.zipWith (fun x y => x * y) xs ys).sum
  (n * sxy - sx * sy) ^ 2 / ((n * sxx - sx * sx) * (n * syy - sy * sy))

/-! ### `NetAnalyzer.calculate_statistics` -/

structure Stats where
  count : ℕ
  mean : ℚ
  median : ℚ
  variance : Option ℚ
  minV : ℚ
  maxV : ℚ
  q25 : ℚ
  q75 : ℚ
  iqr : ℚ
  rangeV : ℚ
  latest : ℚ
  first : ℚ
deriving DecidableEq

def calculate_statistics (df : DataFrame) (subject : String) : Option Stats :=
  if subject ∈ df.cols then
    let data := dataOf df subject
    if data.length = 0 then none
    else
      some
        { count := data.length
          mean := listMean data
          median := pandasQuantile data (1 / 2)
          variance := if 2 ≤ data.length then some (sampleVar data) else none
          minV := listMin data
          maxV := listMax data
          q25 := pandasQuantile data (1 / 4)
          q75 := pandasQuantile data (3 / 4)
          iqr := pandasQuantile data (3 / 4) - pandasQuantile data (1 / 4)
          rangeV := listMax data - listMin data
          latest := data.getLastD 0
          first := data.headD 0 }
  else none

/-- `cv = std / mean * 100 if mean != 0 else 0` applied to a standard
deviation value `sd` (the square root of `Stats.variance`). -/
def cvValue (sd mean : ℚ) : ℚ :=
  if mean ≠ 0 then sd / mean * 100 else 0

/-! ### `NetAnalyzer.get_progression_trend` -/

structure TrendInfo where
  slope : ℚ
  intercept : ℚ
  r_squared : ℚ
  p_value : ℚ
  std_error : ℚ
  trend : String
  next_prediction : ℚ
  total_improvement : ℚ
  improvement_percentage : ℚ
deriving DecidableEq

def trendLabel (slope p : ℚ) : String :=
  if p < Config.Analysis.TREND_P_VALUE_THRESHOLD then
    if slope > Config.Analysis.TREND_STRONG_SLOPE then "Strong Increase"
    else if slope > Config.Analysis.TREND_LIGHT_SLOPE then "Slight Increase"
    else if slope < -Config.Analysis.TREND_STRONG_SLOPE then "Strong Decrease"
    else if slope < -Config.Analysis.TREND_LIGHT_SLOPE then "Slight Decrease"
    else "Stable"
  else "Statistically insignificant"

def get_progression_trend (pfun sefun : List ℚ → ℚ) (df : DataFrame)
    (subject : String) : Option TrendInfo :=
  if subject ∈ df.cols then
    let data := sortedDataOf df subject
    if data.length < 2 then none
    else
      some
        { slope := olsSlope data
          intercept := olsIntercept data
          r_squared := olsRSquared data
          p_value := pfun data
          std_error := sefun data
          trend := trendLabel (olsSlope data) (pfun data)
          next_prediction := olsSlope data * (data.length : ℚ) + olsIntercept data
          total_improvement := data.getLastD 0 - data.headD 0
          improvement_percentage :=
            if data.headD 0 ≠ 0 then
              (data.getLastD 0 - data.headD 0) / data.headD 0 * 100
            else 0 }
  else none

/-! ### `NetAnalyzer.get_all_subjects_statistics` / `get_all_subjects_trends` -/

def get_all_subjects_statistics (df : DataFrame) : List (String × Stats) :=
  (df.cols.filter (fun c => nameContains c "Net")).filterMap
    (fun c => (calculate_statistics df c).map (fun s => (c, s)))

def get_all_subjects_trends (pfun sefun : List ℚ → ℚ) (df : DataFrame) :
    List (String × TrendInfo) :=
  (df.cols.filter (fun c => nameContains c "Net")).filterMap
    (fun c => (get_progression_trend pfun sefun df c).map (fun t => (c, t)))

/-! ### `NetAnalyzer.identify_weak_subjects` / `identify_strong_subjects` -/

structure RankEntry where
  subject : String
  mean : ℚ
  latest : ℚ
  trend : String
deriving DecidableEq

/-- `all_trends_df.loc[subject, 'trend'] if subject in all_trends_df.index
else 'Uncertain'`. -/
def trendOfSubject (trends : List (String × TrendInfo)) (s : String) : String :=
  match alookup trends s with
  | some t => t.trend
  | none => "Uncertain"

def mkRankEntry (trends : List (String × TrendInfo)) (e : String × Stats) :
    RankEntry :=
  { subject := e.1, mean := e.2.mean, latest := e.2.latest
    trend := trendOfSubject trends e.1 }

/-- `all_stats_df.drop(index='Toplam Net', errors='ignore')`. -/
def dropToplam (l : List (String × Stats)) : List (String × Stats) :=
  l.filter (fun e => e.1 ≠ "Toplam Net")

/-- `identify_weak_subjects`. When `get_all_subjects_statistics` yields
nothing, `pd.DataFrame()` has no `'mean'` column and
`all_stats_df['mean']` raises `KeyError`, modelled as `Except.error`.
When only the aggregate row exists, the median of the empty mean column
is NaN and every `<` comparison with it is false, so the result is
empty. -/
def identify_weak_subjects (pfun sefun : List ℚ → ℚ) (df : DataFrame) :
    Except String (List RankEntry) :=
  let allStats := get_all_subjects_statistics df
  match allStats with
  | [] => Except.error "KeyError: mean"
  | _ =>
    let dropped := dropToplam allStats
    let trends := get_all_subjects_trends pfun sefun df
    match dropped with
    | [] => Except.ok []
    | _ =>
      let medianOfMeans := pandasQuantile (dropped.map (fun e => e.2.mean)) (1 / 2)
      let weak := dropped.filter (fun e => e.2.mean < medianOfMeans)
      Except.ok
        (List.insertionSort (fun a b : RankEntry => a.mean ≤ b.mean)
          (weak.map (mkRankEntry trends)))

/-- `identify_strong_subjects`; the `if all_stats_df.empty: return []`
guard runs after the drop, so an empty (or aggregate-only) statistics
table yields `[]` with no lookup of the missing quantile. -/
def identify_strong_subjects (pfun sefun : List ℚ → ℚ) (df : DataFrame) :
    List RankEntry :=
  let allStats := get_all_subjects_statistics df
  let dropped := dropToplam allStats
  let trends := get_all_subjects_trends pfun sefun df
  match dropped with
  | [] => []
  | _ =>
    let threshold := pandasQuantile (dropped.map (fun e => e.2.mean)) (3 / 4)
    let strong := dropped.filter (fun e => threshold ≤ e.2.mean)
    List.insertionSort (fun a b : RankEntry => b.mean ≤ a.mean)
      (strong.map (mkRankEntry trends))

/-! ### `NetAnalyzer.calculate_improvement_rate` -/

structure Improvement where
  recent_mean : ℚ
  previous_mean : ℚ
  absolute_change : ℚ
  percentage_change : ℚ
  recent_variance : Option ℚ
  previous_variance : Option ℚ
  consistency_improved : Bool
  interpretation : String
deriving DecidableEq

/-- `recent.std() < previous.std()`; a NaN std (window of size 1) makes
the comparison false, and on actual numbers `sqrt` is monotone so the
variance comparison is equivalent. -/
def varLt : Option ℚ → Option ℚ → Bool
  | some a, some b => decide (a < b)
  | _, _ => false

def windowVar (l : List ℚ) : Option ℚ :=
  if 2 ≤ l.length then some (sampleVar l) else none

def improvementBands (change : ℚ) : String :=
  if change > 5 then "Great! Significant improvement ðŸš€"
  else if change > 2 then "Good! Improvement continues ðŸ‘"
  else if change > -2 then "Stable performance ðŸ“Š"
  else "Warning! Regression detected, review topics âš ï¸"

def calculate_improvement_rate (df : DataFrame) (subject : String)
    (window : ℕ) : Option Improvement :=
  if subject ∈ df.cols then
    let data := sortedDataOf df subject
    if data.length < window then none
    else
      let recent := data.drop (data.length - window)
      let previous :=
        if 2 * window ≤ data.length then
          (data.drop (data.length - 2 * window)).take window
        else data.take window
      let change := listMean recent - listMean previous
      some
        { recent_mean := listMean recent
          previous_mean := listMean previous
          absolute_change := change
          percentage_change :=
            if listMean previous ≠ 0 then
              change / listMean previous * 100
            else 0
          recent_variance := windowVar recent
          previous_variance := windowVar previous
          consistency_improved := varLt (windowVar recent) (windowVar previous)
          interpretation := improvementBands change }
  else none

/-! ### `NetAnalyzer.compare_to_target` -/

structure Comparison where
  target : ℚ
  currentV : ℚ
  gap : ℚ
  gap_percentage : ℚ
  exams_needed : Option ℤ
  achievable : Bool
  status : String
deriving DecidableEq

def statusTargetExceeded : String := "ðŸŽ‰ Target exceeded!"

def statusVeryClose : String := "ðŸ”¥ Very close to the target!"

def statusOnTrack : String := "ðŸ’ª Going well, keep it up!"

def statusNeedsWork : String := "ðŸ“š You need to study more"

def statusBands (gap gapPct : ℚ) : String :=
  if gap ≤ 0 then statusTargetExceeded
  else if gapPct < 10 then statusVeryClose
  else if gapPct < 25 then statusOnTrack
  else statusNeedsWork

def compare_to_target (pfun sefun : List ℚ → ℚ) (df : DataFrame)
    (target_net : ℚ) (subject : String) : Option Comparison :=
  match calculate_statistics df subject with
  | none => none
  | some stats =>
    let current_net := stats.latest
    let gap := target_net - current_net
    let gap_percentage := if target_net ≠ 0 then gap / target_net * 100 else 0
    let trend := get_progression_trend pfun sefun df subject
    let exams_needed : Option ℤ :=
      match trend with
      | some t => if t.slope > 0 then some ⌈gap / t.slope⌉ else none
      | none => none
    let achievable : Bool :=
      match trend with
      | some t => if t.slope > 0 then decide (gap ≤ t.slope * 10) else false
      | none => false
    some
      { target := target_net
        currentV := current_net
        gap := gap
        gap_percentage := gap_percentage
        exams_needed := exams_needed
        achievable := achievable
        status := statusBands gap gap_percentage }

/-! ### `NetAnalyzer.predict_next_exam` -/

structure Prediction where
  prediction : ℚ
  lower_bound : ℚ
  upper_bound : ℚ
  confidence : ℕ
  based_on_exams : ℕ
  latest_net : ℚ
deriving DecidableEq

def predict_next_exam (pfun sefun : List ℚ → ℚ) (df : DataFrame)
    (subject : String) : Option Prediction :=
  match get_progression_trend pfun sefun df subject,
      calculate_statistics df subject with
  | some trend_info, some stats =>
    let prediction := trend_info.next_prediction
    let confidence_interval := 196 / 100 * trend_info.std_error
    some
      { prediction := prediction
        lower_bound := prediction - confidence_interval
        upper_bound := prediction + confidence_interval
        confidence := 95
        based_on_exams := stats.count
        latest_net := stats.latest }
  | _, _ => none

/-! ### `TopicAnalyzer._precompute_all_topic_trends` -/

structure TopicEntry where
  appearances : List ℕ
  dates : List ℤ
  exam_names : List String
deriving DecidableEq

abbrev Index := List ((String × String) × TopicEntry)

def lookupIdx (idx : Index) (key : String × String) : Option TopicEntry :=
  alookup idx key

def topicListSuffix : String := " Yanlış Konular_List"

/-- `all_topic_data[key]['appearances'][i] = 1` on the `defaultdict`:
an existing entry has its `i`-th flag set, a fresh key gets the default
record (all-zero presence vector aligned with the sorted dates and exam
names) with the `i`-th flag set. New keys go to the end, matching dict
insertion order. -/
def setFlag (n i : ℕ) (dts : List ℤ) (enames : List String)
    (key : String × String) : Index → Index
  | [] => [(key, ⟨(List.replicate n 0).set i 1, dts, enames⟩)]
  | (k, e) :: rest =>
    if k = key then
      (k, { e with appearances := e.appearances.set i 1 }) :: rest
    else (k, e) :: setFlag n i dts enames key rest

def processRow (listCols : List String) (n i : ℕ) (dts : List ℤ)
    (enames : List String) (r : Row) (idx : Index) : Index :=
  listCols.foldl
    (fun idx c =>
      match getTList r c with
      | some topics =>
        topics.foldl
          (fun idx topic =>
            setFlag n i dts enames (pyReplace c topicListSuffix "", topic) idx)
          idx
      | none => idx)
    idx

def buildIndexAux (listCols : List String) (n : ℕ) (dts : List ℤ)
    (enames : List String) : ℕ → List Row → Index → Index
  | _, [], idx => idx
  | i, r :: rs, idx =>
    buildIndexAux listCols n dts enames (i + 1) rs
      (processRow listCols n i dts enames r idx)

def precompute_all_topic_trends (df : DataFrame) : Index :=
  let sorted := sortRows df.rows
  let listCols := df.cols.filter (fun c => nameContains c "_List")
  buildIndexAux listCols sorted.length (sorted.map (fun r => r.tarih))
    (sorted.map (fun r => r.dname)) 0 sorted []

/-! ### `TopicAnalyzer.get_topic_trend_by_exam` -/

/-- `np.where(appearances == 1)[0]`. -/
def occIndices (app : List ℕ) : List ℕ :=
  (app.enum.filter (fun p => p.2 = 1)).map (fun p => p.1)

/-- `np.mean(np.diff(l))`. -/
def meanDiff (l : List ℕ) : ℚ :=
  let diffs := (l.zip l.tail).map (fun p => (p.2 : ℚ) - (p.1 : ℚ))
  diffs.sum / diffs.length

def trendSabit : String := "➡️ Sabit"

def trendImproving : String := "✅ Gelişiyor (Son zamanlarda tekrarlanmamış)"

def trendRepeating : String := "⚠️ Tekrarlıyor (Sık sık yanlış yapılıyor)"

def trendWorsening : String := "🚨 Kötüleşiyor (Son zamanlarda daha sık tekrarlanmış)"

/-- The classification block of `get_topic_trend_by_exam` as a function
of the presence vector alone. -/
def codeTopicTrend (app : List ℕ) : String :=
  let indices := occIndices app
  let total := app.length
  let frequency := indices.length
  let w := max 1 (total / 4)
  let recent := (app.drop (total - w)).sum
  if recent = 0 then trendImproving
  else if 1 < frequency then
    let base :=
      if (total : ℚ) * (3 / 4) < (indices.getLastD 0 : ℚ) ∧
          meanDiff indices < (total : ℚ) / (frequency : ℚ) then
        trendRepeating
      else trendSabit
    if (frequency : ℚ) / (total : ℚ) < (recent : ℚ) / (w : ℚ) then
      trendWorsening
    else base
  else trendSabit

structure TopicDetail where
  konu : String
  ders : String
  frekans : ℕ
  toplam_deneme : ℕ
  son_gorulme_idx : ℕ
  trend : String
  deneme_adlari : List String
  tarihler : List ℤ
deriving DecidableEq

inductive TopicTrendResult where
  | veriYok : TopicTrendResult
  | hicTekrarlanmamis : TopicTrendResult
  | result : TopicDetail → TopicTrendResult
deriving DecidableEq

def get_topic_trend_by_exam (precomputed : Index) (subject topic : String) :
    TopicTrendResult :=
  match lookupIdx precomputed (subject, topic) with
  | none => TopicTrendResult.veriYok
  | some e =>
    let indices := occIndices e.appearances
    if indices = [] then TopicTrendResult.hicTekrarlanmamis
    else
      TopicTrendResult.result
        { konu := topic
          ders := subject
          frekans := indices.length
          toplam_deneme := e.appearances.length
          son_gorulme_idx := indices.getLastD 0
          trend := codeTopicTrend e.appearances
          deneme_adlari := indices.map (fun i => e.exam_names.getD i "")
          tarihler := indices.map (fun i => e.dates.getD i 0) }

/-! ### `TopicAnalyzer.generate_study_plan` -/

structure PlanItem where
  konu : String
  oncelik : String
  frekans : ℕ
  son_durum : String
  sira : ℕ
deriving DecidableEq

/-- `all_topics[topic] += count` on a `defaultdict(int)`. -/
def topicCountAdd : List (String × ℕ) → String → ℕ → List (String × ℕ)
  | [], t, c => [(t, c)]
  | (t0, c0) :: rest, t, c =>
    if t0 = t then (t0, c0 + c) :: rest
    else (t0, c0) :: topicCountAdd rest t c

/-- `subjects_of_topics[topic] = subject` (update or append). -/
def subjectOfSet : List (String × String) → String → String → List (String × String)
  | [], t, s => [(t, s)]
  | (t0, s0) :: rest, t, s =>
    if t0 = t then (t0, s) :: rest
    else (t0, s0) :: subjectOfSet rest t s

def allTopicsStep (acc : List (String × ℕ) × List (String × String))
    (ke : (String × String) × TopicEntry) :
    List (String × ℕ) × List (String × String) :=
  let c := ke.2.appearances.sum
  if 0 < c then (topicCountAdd acc.1 ke.1.2 c, subjectOfSet acc.2 ke.1.2 ke.1.1)
  else acc

def buildAllTopics (idx : Index) : List (String × ℕ) × List (String × String) :=
  idx.foldl allTopicsStep ([], [])

def priorityOf (freq : ℕ) : String :=
  if freq = 1 then "🟢 Düşük"
  else if freq < 3 then "🟡 Orta"
  else "🔴 Yüksek"

/-- `trend_info.get('trend', '➡️ Bilinmiyor')`; every branch of
`get_topic_trend_by_exam` stores a `'trend'` key, so the default is
unreachable. -/
def recentStatusOf : TopicTrendResult → String
  | TopicTrendResult.veriYok => "Veri Yok"
  | TopicTrendResult.hicTekrarlanmamis => "Hiç Tekrarlanmamış"
  | TopicTrendResult.result d => d.trend

def planLoop (trends : Index) (subject : String) (maxT : ℕ) :
    List (String × ℕ) → ℕ → List PlanItem → List PlanItem
  | [], _, acc => acc
  | (topic, freq) :: rest, i, acc =>
    if maxT ≤ acc.length then acc
    else
      planLoop trends subject maxT rest (i + 1)
        (acc ++
          [{ konu := topic
             oncelik := priorityOf freq
             frekans := freq
             son_durum := recentStatusOf (get_topic_trend_by_exam trends subject topic)
             sira := i + 1 }])

/-- Python string `<` (code-point lexicographic), used by `sorted` on
the `(öncelik, -frekans)` key tuples. -/
def charListLt : List Char → List Char → Bool
  | [], [] => false
  | [], _ :: _ => true
  | _ :: _, [] => false
  | a :: as, b :: bs => if a < b then true else if b < a then false else charListLt as bs

def strLtB (a b : String) : Bool := charListLt a.data b.data

def planLe (a b : PlanItem) : Prop :=
  strLtB a.oncelik b.oncelik = true ∨ (a.oncelik = b.oncelik ∧ b.frekans ≤ a.frekans)

instance : DecidableRel planLe := fun a b => by
  unfold planLe
  infer_instance

/-- `sorted(subject_plan_items, key=lambda x: (x['öncelik'], -x['frekans']))`
followed by the `sıra` renumbering pass. -/
def resortPlan (items : List PlanItem) : List PlanItem :=
  (List.insertionSort planLe items).enum.map
    (fun p => { p.2 with sira := p.1 + 1 })

def updateAssoc : List (String × List PlanItem) → String → List PlanItem →
    List (String × List PlanItem)
  | [], s, its => [(s, its)]
  | (k, v) :: rest, s, its =>
    if k = s then (k, its) :: rest
    else (k, v) :: updateAssoc rest s its

def planPlaceholder : List (String × List PlanItem) :=
  [("Genel",
    [{ konu := "Harika! Çalışılacak acil bir konu bulunamadı."
       oncelik := "🟢 Düşük"
       frekans := 0
       son_durum := "✅"
       sira := 1 }])]

/-- The body of the per-subject loop of `generate_study_plan`: filter
the globally sorted topics down to the subject, truncate, classify,
re-sort by `(öncelik, -frekans)`, and store into the plan dict (skipping
subjects with no topics). -/
def planStep (trends : Index) (maxT : ℕ) (sorted_topics : List (String × ℕ))
    (subjects_of_topics : List (String × String))
    (plan : List (String × List PlanItem)) (subject : String) :
    List (String × List PlanItem) :=
  let subject_topics :=
    sorted_topics.filter
      (fun p => decide (alookup subjects_of_topics p.1 = some subject))
  let items := planLoop trends subject maxT subject_topics 0 []
  if items = [] then plan else updateAssoc plan subject (resortPlan items)

def generate_study_plan (configSubjects : List String) (df : DataFrame)
    (precomputed_trends : Index) (focus_subjects : Option (List String))
    (max_topics_per_subject : ℕ) : List (String × List PlanItem) :=
  let built := buildAllTopics precomputed_trends
  let all_topics := built.1
  let subjects_of_topics := built.2
  match all_topics with
  | [] => planPlaceholder
  | _ =>
    let subjects_to_process :=
      match focus_subjects with
      | some l => if l = [] then configSubjects else l
      | none => configSubjects
    let sorted_topics :=
      List.insertionSort (fun a b : String × ℕ => b.2 ≤ a.2) all_topics
    subjects_to_process.foldl
      (planStep precomputed_trends max_topics_per_subject sorted_topics
        subjects_of_topics)
      []

/-! ### Spec-side comparison definitions and concrete fixtures -/

/-- The topic-trend cascade exactly as the specification words it: the
"worsening" override applies only when the "repeating" conditions
additionally hold. -/
def specTopicTrendC1 (app : List ℕ) : String :=
  let indices := occIndices app
  let total := app.length
  let frequency := indices.length
  let w := max 1 (total / 4)
  let recent := (app.drop (total - w)).sum
  if recent = 0 then trendImproving
  else if 1 < frequency ∧ (total : ℚ) * (3 / 4) < (indices.getLastD 0 : ℚ) ∧
      meanDiff indices < (total : ℚ) / (frequency : ℚ) then
    if (frequency : ℚ) / (total : ℚ) < (recent : ℚ) / (w : ℚ) then trendWorsening
    else trendRepeating
  else trendSabit

/-- The topic-trend cascade the code actually implements: "worsening"
needs only `frequency > 1`, a nonzero recent count and the density
comparison, independently of the "repeating" conditions. -/
def amendedTopicTrend (app : List ℕ) : String :=
  let indices := occIndices app
  let total := app.length
  let frequency := indices.length
  let w := max 1 (total / 4)
  let recent := (app.drop (total - w)).sum
  if recent = 0 then trendImproving
  else if 1 < frequency ∧ (frequency : ℚ) / (total : ℚ) < (recent : ℚ) / (w : ℚ) then
    trendWorsening
  else if 1 < frequency ∧ (total : ℚ) * (3 / 4) < (indices.getLastD 0 : ℚ) ∧
      meanDiff indices < (total : ℚ) / (frequency : ℚ) then
    trendRepeating
  else trendSabit

/-- Total occurrence count of a topic name summed over every
`(subject, topic)` key of the index — what `all_topics[topic]`
accumulates in `generate_study_plan`. -/
def totalTopicCount (idx : Index) (t : String) : ℕ :=
  ((idx.filter (fun ke => ke.1.2 = t)).map (fun ke => ke.2.appearances.sum)).sum

/-- Stand-in for scipy's p-value on a data set; `0` is also scipy's exact
output on a noiseless linear fit. -/
def pfZero : List ℚ → ℚ := fun _ => 0

/-- Stand-in for scipy's standard error; `0` is exact on a noiseless
linear fit. -/
def seZero : List ℚ → ℚ := fun _ => 0

def reverseDf (df : DataFrame) : DataFrame := ⟨df.cols, df.rows.reverse⟩

/-- Four sequential exams; the topic `Türev` is missed on exams 1, 2, 4. -/
def dfC1 : DataFrame :=
  { cols := ["Tarih", "Deneme Adı", "Matematik Yanlış Konular_List"]
    rows :=
      [⟨1, "E1", [], [("Matematik Yanlış Konular_List", some ["Türev"])]⟩,
       ⟨2, "E2", [], [("Matematik Yanlış Konular_List", some ["Türev"])]⟩,
       ⟨3, "E3", [], [("Matematik Yanlış Konular_List", some [])]⟩,
       ⟨4, "E4", [], [("Matematik Yanlış Konular_List", some ["Türev"])]⟩] }

/-- Two exams with nets 78 and 80: latest 80, fitted slope 2. -/
def dfC2 : DataFrame :=
  { cols := ["Tarih", "Deneme Adı", "Matematik Net"]
    rows :=
      [⟨1, "E1", [("Matematik Net", some 78)], []⟩,
       ⟨2, "E2", [("Matematik Net", some 80)], []⟩] }

/-- The shared-topic fixture: topic `X` is missed under subject `A` on
exam 1 and under subject `B` on exams 1 and 2. -/
def dfC4 : DataFrame :=
  { cols := ["Tarih", "Deneme Adı", "A Yanlış Konular_List", "B Yanlış Konular_List"]
    rows :=
      [⟨1, "E1", [],
        [("A Yanlış Konular_List", some ["X"]), ("B Yanlış Konular_List", some ["X"])]⟩,
       ⟨2, "E2", [],
        [("A Yanlış Konular_List", some []), ("B Yanlış Konular_List", some ["X"])]⟩] }

/-- A constant series with nonzero mean: std = 0 while mean = 5. -/
def dfC6 : DataFrame :=
  { cols := ["Tarih", "X Net"]
    rows :=
      [⟨1, "E1", [("X Net", some 5)], []⟩,
       ⟨2, "E2", [("X Net", some 5)], []⟩] }

/-- Two net columns with constant values 1 and 3. -/
def dfC7 : DataFrame :=
  { cols := ["Tarih", "A Net", "B Net"]
    rows :=
      [⟨1, "E1", [("A Net", some 1), ("B Net", some 3)], []⟩,
       ⟨2, "E2", [("A Net", some 1), ("B Net", some 3)], []⟩] }

/-- The §8 scenario: exams E1..E5 dated sequentially with
`Matematik Net` 20, 22, 24, 26, 28. -/
def dfC8 : DataFrame :=
  { cols := ["Tarih", "Deneme Adı", "Matematik Net"]
    rows :=
      [⟨1, "E1", [("Matematik Net", some 20)], []⟩,
       ⟨2, "E2", [("Matematik Net", some 22)], []⟩,
       ⟨3, "E3", [("Matematik Net", some 24)], []⟩,
       ⟨4, "E4", [("Matematik Net", some 26)], []⟩,
       ⟨5, "E5", [("Matematik Net", some 28)], []⟩] }

/-- A table with no net columns at all: `get_all_subjects_statistics`
is empty and `identify_weak_subjects` hits the `KeyError`. -/
def dfEmpty : DataFrame := { cols := [], rows := [] }

/-! ### Shared inversion lemmas -/

lemma calculate_statistics_some {df : DataFrame} {s : String} {st : Stats}
    (h : calculate_statistics df s = some st) :
    s ∈ df.cols ∧ dataOf df s ≠ [] ∧
      st =
        { count := (dataOf df s).length
          mean := listMean (dataOf df s)
          median := pandasQuantile (dataOf df s) (1 / 2)
          variance :=
            if 2 ≤ (dataOf df s).length then some (sampleVar (dataOf df s)) else none
          minV := listMin (dataOf df s)
          maxV := listMax (dataOf df s)
          q25 := pandasQuantile (dataOf df s) (1 / 4)
          q75 := pandasQuantile (dataOf df s) (3 / 4)
          iqr := pandasQuantile (dataOf df s) (3 / 4) - pandasQuantile (dataOf df s) (1 / 4)
          rangeV := listMax (dataOf df s) - listMin (dataOf df s)
          latest := (dataOf df s).getLastD 0
          first := (dataOf df s).headD 0 } := by
  simp only [calculate_statistics] at h
  split at h
  next hcol =>
    split at h
    next => exact absurd h (by simp)
    next hlen =>
      refine ⟨hcol, ?_, (Option.some.inj h).symm⟩
      intro hnil
      exact hlen (by simp [hnil])
  next => exact absurd h (by simp)

lemma get_progression_trend_some {pf sef : List ℚ → ℚ} {df : DataFrame}
    {s : String} {t : TrendInfo} (h : get_progression_trend pf sef df s = some t) :
    s ∈ df.cols ∧ 2 ≤ (sortedDataOf df s).length ∧
      t =
        { slope := olsSlope (sortedDataOf df s)
          intercept := olsIntercept (sortedDataOf df s)
          r_squared := olsRSquared (sortedDataOf df s)
          p_value := pf (sortedDataOf df s)
          std_error := sef (sortedDataOf df s)
          trend := trendLabel (olsSlope (sortedDataOf df s)) (pf (sortedDataOf df s))
          next_prediction :=
            olsSlope (sortedDataOf df s) * ((sortedDataOf df s).length : ℚ) +
              olsIntercept (sortedDataOf df s)
          total_improvement :=
            (sortedDataOf df s).getLastD 0 - (sortedDataOf df s).headD 0
          improvement_percentage :=
            if (sortedDataOf df s).headD 0 ≠ 0 then
              ((sortedDataOf df s).getLastD 0 - (sortedDataOf df s).headD 0) /
                  (sortedDataOf df s).headD 0 * 100
            else 0 } := by
  simp only [get_progression_trend] at h
  split at h
  next hcol =>
    split at h
    next => exact absurd h (by simp)
    next hlen => exact ⟨hcol, by omega, (Option.some.inj h).symm⟩
  next => exact absurd h (by simp)

lemma trendLabel_cascade (sl p : ℚ) :
    trendLabel sl p =
      if 1 / 20 ≤ p then "Statistically insignificant"
      else if 1 / 2 < sl then "Strong Increase"
      else if 1 / 10 < sl then "Slight Increase"
      else if sl < -(1 / 2) then "Strong Decrease"
      else if sl < -(1 / 10) then "Slight Decrease"
      else "Stable" := by
  unfold trendLabel Config.Analysis.TREND_P_VALUE_THRESHOLD
    Config.Analysis.TREND_STRONG_SLOPE Config.Analysis.TREND_LIGHT_SLOPE
  split_ifs <;> first | rfl | (exfalso; linarith)

def tC8 : TrendInfo := ⟨2, 20, 1, 0, 0, "Strong Increase", 30, 8, 40⟩

lemma dfC8_trend_eval :
    get_progression_trend pfZero seZero dfC8 "Matematik Net" = some tC8 := by
  norm_num [get_progression_trend, sortedDataOf, dfC8, sortRows, List.insertionSort,
    List.orderedInsert, getCell, alookup, List.filterMap_cons, Option.join,
    olsSlope, olsIntercept, olsRSquared, olsXs, List.range_succ, trendLabel,
    Config.Analysis.TREND_P_VALUE_THRESHOLD, Config.Analysis.TREND_STRONG_SLOPE,
    pfZero, seZero, tC8]

/-! ### C3 -/

/-- C3: for every table and subject with at least 2 non-missing
observations (i.e. whenever `get_progression_trend` yields a result),
the trend label follows the stated first-match-wins order: p-value
≥ 0.05 gives "statistically insignificant" regardless of slope, then
slope > 0.5 strong increase, slope > 0.1 slight increase, slope < −0.5
strong decrease, slope < −0.1 slight decrease, otherwise stable. -/
theorem trend_classification_order (pf sef : List ℚ → ℚ) (df : DataFrame)
    (s : String) (t : TrendInfo) (h : get_progression_trend pf sef df s = some t) :
    t.trend =
      if 1 / 20 ≤ t.p_value then "Statistically insignificant"
      else if 1 / 2 < t.slope then "Strong Increase"
      else if 1 / 10 < t.slope then "Slight Increase"
      else if t.slope < -(1 / 2) then "Strong Decrease"
      else if t.slope < -(1 / 10) then "Slight Decrease"
      else "Stable" := by
  obtain ⟨-, -, rfl⟩ := get_progression_trend_some h
  exact trendLabel_cascade _ _

/-- C3 witness: the classification equation instantiated on the
concrete five-exam table. -/
theorem trend_classification_order_witness :
    tC8.trend =
      if 1 / 20 ≤ tC8.p_value then "Statistically insignificant"
      else if 1 / 2 < tC8.slope then "Strong Increase"
      else if 1 / 10 < tC8.slope then "Slight Increase"
      else if tC8.slope < -(1 / 2) then "Strong Decrease"
      else if tC8.slope < -(1 / 10) then "Slight Decrease"
      else "Stable" :=
  trend_classification_order pfZero seZero dfC8 "Matematik Net" tC8 dfC8_trend_eval

/-! ### C2 -/

def stC2 : Stats := ⟨2, 79, 79, some 2, 78, 80, 157 / 2, 159 / 2, 1, 2, 80, 78⟩

lemma dfC2_stats_eval : calculate_statistics dfC2 "Matematik Net" = some stC2 := by
  norm_num [calculate_statistics, dataOf, dfC2, getCell, alookup, List.filterMap_cons,
    Option.join, listMean, pandasQuantile, interpAt, List.insertionSort, List.orderedInsert,
    sampleVar, listMin, listMax, stC2]

def cC2 : Comparison := ⟨100, 80, 20, 20, some 10, true, statusOnTrack⟩

def tC2 : TrendInfo := ⟨2, 78, 1, 0, 0, "Strong Increase", 82, 2, 100 / 39⟩

lemma dfC2_trend_eval :
    get_progression_trend pfZero seZero dfC2 "Matematik Net" = some tC2 := by
  norm_num [get_progression_trend, sortedDataOf, dfC2, sortRows, List.insertionSort,
    List.orderedInsert, getCell, alookup, List.filterMap_cons, Option.join,
    olsSlope, olsIntercept, olsRSquared, olsXs, List.range_succ, trendLabel,
    Config.Analysis.TREND_P_VALUE_THRESHOLD, Config.Analysis.TREND_STRONG_SLOPE,
    pfZero, seZero, tC2]

lemma dfC2_compare_eval :
    compare_to_target pfZero seZero dfC2 100 "Matematik Net" = some cC2 := by
  simp only [compare_to_target, dfC2_stats_eval, dfC2_trend_eval]
  norm_num [stC2, tC2, cC2, statusBands, statusOnTrack, statusTargetExceeded,
    statusVeryClose, statusNeedsWork, Int.ceil_eq_iff]

/-- C2: whenever a subject has non-empty statistics, `compare_to_target`
returns gap = target − latest, gap_percentage = gap/target × 100 (0 for a
zero target); with a fitted slope > 0 it returns
exams_needed = ⌈gap/slope⌉ and achievable ⇔ gap ≤ slope × 10; with
slope ≤ 0 or no trend, exams_needed is none and achievable is false; the
status buckets follow gap ≤ 0, gap% < 10, gap% < 25, else. In
particular target 100, latest 80, slope 2 gives gap 20, exams_needed 10,
achievable and the on-track status. -/
theorem compare_to_target_contract :
    (∀ (pf sef : List ℚ → ℚ) (df : DataFrame) (target : ℚ) (s : String) (st : Stats),
      calculate_statistics df s = some st →
      ∃ c, compare_to_target pf sef df target s = some c ∧
        c.target = target ∧
        c.currentV = st.latest ∧
        c.gap = target - st.latest ∧
        c.gap_percentage = (if target = 0 then 0 else c.gap / target * 100) ∧
        (∀ t, get_progression_trend pf sef df s = some t → 0 < t.slope →
          c.exams_needed = some ⌈c.gap / t.slope⌉ ∧
            (c.achievable = true ↔ c.gap ≤ t.slope * 10)) ∧
        (∀ t, get_progression_trend pf sef df s = some t → t.slope ≤ 0 →
          c.exams_needed = none ∧ c.achievable = false) ∧
        (get_progression_trend pf sef df s = none →
          c.exams_needed = none ∧ c.achievable = false) ∧
        c.status =
          (if c.gap ≤ 0 then statusTargetExceeded
           else if c.gap_percentage < 10 then statusVeryClose
           else if c.gap_percentage < 25 then statusOnTrack
           else statusNeedsWork)) ∧
    compare_to_target pfZero seZero dfC2 100 "Matematik Net" =
      some ⟨100, 80, 20, 20, some 10, true, statusOnTrack⟩ := by
  constructor
  · intro pf sef df target s st h
    simp only [compare_to_target, h]
    refine ⟨_, rfl, rfl, rfl, rfl, ?_, ?_, ?_, ?_, ?_⟩
    · dsimp only
      by_cases ht : target = 0 <;> simp [ht]
    · intro t ht hs
      simp only [ht]
      refine ⟨?_, ?_⟩
      · rw [if_pos hs]
      · rw [if_pos hs]
        simp
    · intro t ht hs
      simp only [ht]
      refine ⟨?_, ?_⟩
      · rw [if_neg (not_lt.mpr hs)]
      · rw [if_neg (not_lt.mpr hs)]
    · intro hnone
      simp [hnone]
    · rfl
  · exact dfC2_compare_eval

/-- C2 witness: the contract applied to the concrete two-exam table with
target 100, yielding gap 20. -/
theorem compare_to_target_contract_witness : cC2.gap = 100 - stC2.latest := by
  obtain ⟨c, hc, -, -, hgap, -⟩ :=
    compare_to_target_contract.1 pfZero seZero dfC2 100 "Matematik Net" stC2
      dfC2_stats_eval
  exact (Option.some.inj (hc.symm.trans dfC2_compare_eval)) ▸ hgap

/-! ### C8 -/

/-- C8: with at least 2 observations the one-step prediction is
slope × n + intercept, total improvement is last − first, the
improvement percentage divides by the first value with 0 substituted
when it is 0, and the prediction interval is prediction
± 1.96 × standard error; on the series [20,22,24,26,28] the label is
"Strong Increase", the prediction 30 and the improvement 8. -/
theorem prediction_and_improvement :
    (∀ (pf sef : List ℚ → ℚ) (df : DataFrame) (s : String) (t : TrendInfo),
      get_progression_trend pf sef df s = some t →
      t.next_prediction = t.slope * ((sortedDataOf df s).length : ℚ) + t.intercept ∧
      t.total_improvement = (sortedDataOf df s).getLastD 0 - (sortedDataOf df s).headD 0 ∧
      t.improvement_percentage =
        (if (sortedDataOf df s).headD 0 = 0 then 0
         else ((sortedDataOf df s).getLastD 0 - (sortedDataOf df s).headD 0) /
            (sortedDataOf df s).headD 0 * 100) ∧
      (∀ p, predict_next_exam pf sef df s = some p →
        p.prediction = t.next_prediction ∧
        p.lower_bound = t.next_prediction - 196 / 100 * t.std_error ∧
        p.upper_bound = t.next_prediction + 196 / 100 * t.std_error)) ∧
    get_progression_trend pfZero seZero dfC8 "Matematik Net" = some tC8 ∧
    tC8.trend = "Strong Increase" ∧ tC8.next_prediction = 30 ∧
    tC8.total_improvement = 8 := by
  refine ⟨?_, dfC8_trend_eval, rfl, by norm_num [tC8], by norm_num [tC8]⟩
  intro pf sef df s t h
  obtain ⟨-, -, rfl⟩ := get_progression_trend_some h
  refine ⟨rfl, rfl, ?_, ?_⟩
  · by_cases h0 : (sortedDataOf df s).headD 0 = 0 <;> simp [h0]
  · intro p hp
    simp only [predict_next_exam, h] at hp
    cases hcs : calculate_statistics df s with
    | none => rw [hcs] at hp; exact absurd hp (by simp)
    | some st =>
      rw [hcs] at hp
      have := (Option.some.inj hp).symm
      subst this
      exact ⟨rfl, rfl, rfl⟩

/-- C8 witness: the prediction formula instantiated on the concrete
five-exam table. -/
theorem prediction_and_improvement_witness :
    tC8.next_prediction =
      tC8.slope * ((sortedDataOf dfC8 "Matematik Net").length : ℚ) + tC8.intercept :=
  (prediction_and_improvement.1 pfZero seZero dfC8 "Matematik Net" tC8
    dfC8_trend_eval).1

/-! ### C6 -/

def stC6 : Stats := ⟨2, 5, 5, some 0, 5, 5, 5, 5, 0, 0, 5, 5⟩

lemma dfC6_stats_eval : calculate_statistics dfC6 "X Net" = some stC6 := by
  norm_num [calculate_statistics, dataOf, dfC6, getCell, alookup, List.filterMap_cons,
    Option.join, listMean, pandasQuantile, interpAt, List.insertionSort, List.orderedInsert,
    sampleVar, listMin, listMax, stC6]

/-- C6 counterexample: on the constant series [5, 5] the mean is 5 ≠ 0,
the sample standard deviation is 0 (0 × 0 equals the stored variance),
and the coefficient of variation is nevertheless 0 — refuting "nonzero
whenever the mean is nonzero". -/
theorem cv_zero_claim_counterexample :
    calculate_statistics dfC6 "X Net" = some stC6 ∧
    stC6.variance = some (0 * 0) ∧
    cvValue 0 stC6.mean = 0 ∧
    stC6.mean ≠ 0 :=
  ⟨dfC6_stats_eval, by norm_num [stC6], by norm_num [cvValue, stC6],
   by norm_num [stC6]⟩

/-- C6 amended: for statistics with a real standard deviation (count
≥ 2), the coefficient of variation is 0 iff the mean is 0 or the
standard deviation is 0 (constant data). -/
theorem cv_zero_iff_mean_or_std_zero (df : DataFrame) (s : String) (st : Stats)
    (sd : ℚ) (h : calculate_statistics df s = some st)
    (hv : st.variance = some (sd * sd)) (hsd : 0 ≤ sd) :
    cvValue sd st.mean = 0 ↔ st.mean = 0 ∨ sd = 0 := by
  unfold cvValue
  by_cases hm : st.mean = 0
  · simp [hm]
  · rw [if_pos hm]
    constructor
    · intro h0
      rcases mul_eq_zero.mp h0 with h1 | h1
      · exact Or.inr ((div_eq_zero_iff.mp h1).resolve_right hm)
      · exact absurd h1 (by norm_num)
    · rintro (hm' | hs0)
      · exact absurd hm' hm
      · simp [hs0]

/-- C6 amended witness: instantiated on the constant table with sd = 0. -/
theorem cv_zero_iff_mean_or_std_zero_witness :
    cvValue 0 stC6.mean = 0 ↔ stC6.mean = 0 ∨ (0 : ℚ) = 0 :=
  cv_zero_iff_mean_or_std_zero dfC6 "X Net" stC6 0 dfC6_stats_eval
    (by norm_num [stC6]) le_rfl

/-! ### C1 -/

lemma codeTopicTrend_eq_amended (app : List ℕ) :
    codeTopicTrend app = amendedTopicTrend app := by
  simp only [codeTopicTrend, amendedTopicTrend]
  split_ifs <;> first | rfl | tauto

def entryC1 : TopicEntry := ⟨[1, 1, 0, 1], [1, 2, 3, 4], ["E1", "E2", "E3", "E4"]⟩

/-- C1 counterexample: for the presence vector [1,1,0,1] (4 exams,
occurrences at 0, 1, 3) the "repeating" conditions fail (the last
occurrence index 3 is not strictly beyond 4 × 0.75) while the recent
density 1/1 exceeds the overall density 3/4, so the code labels the
topic "worsening"; the claim's cascade, where "worsening" requires the
"repeating" conditions as well, would label it "stable". -/
theorem topic_trend_claim_counterexample :
    lookupIdx (precompute_all_topic_trends dfC1) ("Matematik", "Türev") =
      some entryC1 ∧
    recentStatusOf
        (get_topic_trend_by_exam (precompute_all_topic_trends dfC1) "Matematik" "Türev") =
      trendWorsening ∧
    specTopicTrendC1 entryC1.appearances = trendSabit ∧
    trendWorsening ≠ trendSabit := by
  have hl : lookupIdx (precompute_all_topic_trends dfC1) ("Matematik", "Türev") =
      some entryC1 := by decide
  have hocc : occIndices entryC1.appearances = [0, 1, 3] := by decide
  have htrend : codeTopicTrend entryC1.appearances = trendWorsening := by
    norm_num [codeTopicTrend, entryC1, occIndices, List.enum, List.enumFrom, meanDiff]
  refine ⟨hl, ?_, ?_, by decide⟩
  · unfold get_topic_trend_by_exam
    rw [hl]
    dsimp only
    rw [hocc, if_neg (show ¬([0, 1, 3] : List ℕ) = [] by decide)]
    simp only [recentStatusOf]
    exact htrend
  · norm_num [specTopicTrendC1, entryC1, occIndices, List.enum, List.enumFrom,
      meanDiff, trendSabit]

/-- C1 amended: for every key present in the index with at least one
occurrence, the reported label follows the code's cascade: "improving"
when the recent count is 0, otherwise "worsening" whenever frequency > 1
and the recent density exceeds the overall density (independently of the
"repeating" conditions), otherwise "repeating" when frequency > 1, the
last occurrence lies in the final quartile and the mean gap is below
n/frequency, otherwise "stable". -/
theorem topic_trend_amended (idx : Index) (s t : String) (e : TopicEntry)
    (hl : lookupIdx idx (s, t) = some e)
    (hocc : occIndices e.appearances ≠ []) :
    recentStatusOf (get_topic_trend_by_exam idx s t) =
      amendedTopicTrend e.appearances := by
  unfold get_topic_trend_by_exam
  rw [hl]
  simp only [hocc, if_false, recentStatusOf]
  exact codeTopicTrend_eq_amended e.appearances

/-- C1 amended witness: instantiated on the concrete four-exam table. -/
theorem topic_trend_amended_witness :
    recentStatusOf
        (get_topic_trend_by_exam (precompute_all_topic_trends dfC1) "Matematik" "Türev") =
      amendedTopicTrend entryC1.appearances :=
  topic_trend_amended (precompute_all_topic_trends dfC1) "Matematik" "Türev" entryC1
    (by decide) (by decide)

/-! ### C10 -/

def goodIndex (n : ℕ) (idx : Index) : Prop :=
  ∀ k e, (k, e) ∈ idx → 1 ∈ e.appearances ∧ e.appearances.length = n

lemma foldl_preserves {α β : Type} {P : β → Prop} {f : β → α → β}
    (hf : ∀ b a, P b → P (f b a)) :
    ∀ (l : List α) (b : β), P b → P (l.foldl f b)
  | [], _, hb => hb
  | a :: l, b, hb => foldl_preserves hf l (f b a) (hf b a hb)

lemma mem_set_one : ∀ (l : List ℕ) (i : ℕ), i < l.length → 1 ∈ l.set i 1
  | _ :: _, 0, _ => by simp
  | a :: l, i + 1, h => by
    simpa using Or.inr (mem_set_one l i (by simpa using h))

lemma setFlag_good {n i : ℕ} {dts : List ℤ} {enames : List String}
    {key : String × String} (hi : i < n) :
    ∀ idx, goodIndex n idx → goodIndex n (setFlag n i dts enames key idx)
  | [], _ => by
    intro k e hm
    simp only [setFlag, List.mem_singleton, Prod.mk.injEq] at hm
    obtain ⟨-, rfl⟩ := hm
    constructor
    · exact mem_set_one _ _ (by simpa using hi)
    · simp
  | (k0, e0) :: rest, hg => by
    intro k e hm
    by_cases hk : k0 = key
    · simp only [setFlag, if_pos hk] at hm
      rcases List.mem_cons.mp hm with hm | hm
      · simp only [Prod.mk.injEq] at hm
        obtain ⟨-, rfl⟩ := hm
        have h0 := hg k0 e0 (List.mem_cons_self _ _)
        refine ⟨mem_set_one _ _ ?_, by simpa using h0.2⟩
        rw [h0.2]
        exact hi
      · exact hg k e (List.mem_cons_of_mem _ hm)
    · simp only [setFlag, if_neg hk] at hm
      rcases List.mem_cons.mp hm with hm | hm
      · exact hg k e (by simp [hm])
      · exact setFlag_good hi rest (fun k1 e1 h1 => hg k1 e1 (List.mem_cons_of_mem _ h1)) k e hm

lemma processRow_good {listCols : List String} {n i : ℕ} {dts : List ℤ}
    {enames : List String} {r : Row} (hi : i < n) {idx : Index}
    (hg : goodIndex n idx) :
    goodIndex n (processRow listCols n i dts enames r idx) := by
  unfold processRow
  refine foldl_preserves ?_ listCols idx hg
  intro idx c hidx
  cases getTList r c with
  | none => simpa using hidx
  | some topics =>
    simp only []
    refine foldl_preserves ?_ topics idx hidx
    intro idx topic hidx2
    exact setFlag_good hi idx hidx2

lemma buildIndexAux_good {listCols : List String} {n : ℕ} {dts : List ℤ}
    {enames : List String} :
    ∀ (rows : List Row) (i : ℕ) (idx : Index), i + rows.length ≤ n →
      goodIndex n idx → goodIndex n (buildIndexAux listCols n dts enames i rows idx)
  | [], _, _, _, hg => hg
  | r :: rs, i, idx, hle, hg => by
    have hi : i < n := by
      simp only [List.length_cons] at hle
      omega
    have hle2 : (i + 1) + rs.length ≤ n := by
      simp only [List.length_cons] at hle
      omega
    exact buildIndexAux_good rs (i + 1) _ hle2 (processRow_good hi hg)

lemma precompute_good (df : DataFrame) :
    goodIndex (sortRows df.rows).length (precompute_all_topic_trends df) := by
  unfold precompute_all_topic_trends
  exact buildIndexAux_good _ 0 [] (by simp) (fun k e h => absurd h (by simp))

lemma lookupIdx_mem : ∀ {idx : Index} {key : String × String} {e : TopicEntry},
    lookupIdx idx key = some e → (key, e) ∈ idx
  | [], _, _, h => by simp [lookupIdx, alookup] at h
  | (k, v) :: rest, key, e, h => by
    simp only [lookupIdx, alookup] at h
    split at h
    next hk =>
      obtain rfl := Option.some.inj h
      exact hk ▸ List.mem_cons_self _ _
    next hk => exact List.mem_cons_of_mem _ (@lookupIdx_mem rest _ _ h)

lemma occIndices_aux : ∀ (app : List ℕ) (s : ℕ), 1 ∈ app →
    ((List.enumFrom s app).filter (fun p => p.2 = 1)).map Prod.fst ≠ []
  | [], _, h => absurd h (by simp)
  | a :: l, s, h => by
    by_cases ha : a = 1
    · simp [List.enumFrom, List.filter_cons, ha]
    · have h1 : 1 ∈ l := by
        rcases List.mem_cons.mp h with h | h
        · exact absurd h.symm ha
        · exact h
      simp only [List.enumFrom, List.filter_cons]
      split
      next hc => simp
      next hc => exact occIndices_aux l (s + 1) h1

lemma occIndices_ne_nil {app : List ℕ} (h1 : 1 ∈ app) : occIndices app ≠ [] := by
  unfold occIndices
  exact occIndices_aux app 0 h1

/-- C10: every key recorded by `precompute_all_topic_trends` owns a
presence vector containing at least one 1 (a key is only created when an
occurrence is written), so `get_topic_trend_by_exam` over such an index
never answers "never repeated": a query either finds an occurrence or
reports "no data" for an absent key. -/
theorem precomputed_index_invariant (df : DataFrame) :
    (∀ k e, (k, e) ∈ precompute_all_topic_trends df → 1 ∈ e.appearances) ∧
    (∀ s t, get_topic_trend_by_exam (precompute_all_topic_trends df) s t ≠
      TopicTrendResult.hicTekrarlanmamis) := by
  have hg := precompute_good df
  refine ⟨fun k e h => (hg k e h).1, ?_⟩
  intro s t hcontra
  unfold get_topic_trend_by_exam at hcontra
  cases hl : lookupIdx (precompute_all_topic_trends df) (s, t) with
  | none =>
    rw [hl] at hcontra
    dsimp only at hcontra
    exact absurd hcontra (by simp)
  | some e =>
    rw [hl] at hcontra
    dsimp only at hcontra
    have h1 : 1 ∈ e.appearances := (hg _ _ (lookupIdx_mem hl)).1
    have hocc := occIndices_ne_nil h1
    rw [if_neg hocc] at hcontra
    exact absurd hcontra (by simp)

/-- C10 witness: instantiated on the concrete four-exam table, both for
a present key and for an absent one. -/
theorem precomputed_index_invariant_witness :
    1 ∈ entryC1.appearances ∧
    get_topic_trend_by_exam (precompute_all_topic_trends dfC1) "Matematik" "Limit" ≠
      TopicTrendResult.hicTekrarlanmamis :=
  ⟨(precomputed_index_invariant dfC1).1 ("Matematik", "Türev") entryC1 (by decide),
   (precomputed_index_invariant dfC1).2 "Matematik" "Limit"⟩

/-! ### C5 -/

/-- C5 counterexample: on a table with no usable net column the
statistics table is empty and `identify_weak_subjects` raises a
`KeyError` (modelled as `Except.error`) instead of returning an empty
result — the claim's "no analytic method raises" fails for this
method. -/
theorem weak_subjects_keyerror_counterexample :
    identify_weak_subjects pfZero seZero dfEmpty = Except.error "KeyError: mean" := by
  rfl

/-- C5 amended: `calculate_statistics`, `get_progression_trend` and
`calculate_improvement_rate` return the empty result on a missing column
or insufficient data, and `identify_strong_subjects` returns [] on an
empty (or aggregate-only) statistics table; `identify_weak_subjects`,
however, raises a `KeyError` whenever no subject has statistics, since
it lacks the emptiness guard its strong counterpart has. -/
theorem analytics_guard_contract :
    (∀ (df : DataFrame) (s : String), s ∉ df.cols →
      calculate_statistics df s = none) ∧
    (∀ (df : DataFrame) (s : String), dataOf df s = [] →
      calculate_statistics df s = none) ∧
    (∀ (pf sef : List ℚ → ℚ) (df : DataFrame) (s : String), s ∉ df.cols →
      get_progression_trend pf sef df s = none) ∧
    (∀ (pf sef : List ℚ → ℚ) (df : DataFrame) (s : String),
      (sortedDataOf df s).length < 2 → get_progression_trend pf sef df s = none) ∧
    (∀ (df : DataFrame) (s : String) (w : ℕ), s ∉ df.cols →
      calculate_improvement_rate df s w = none) ∧
    (∀ (df : DataFrame) (s : String) (w : ℕ),
      (sortedDataOf df s).length < w → calculate_improvement_rate df s w = none) ∧
    (∀ (pf sef : List ℚ → ℚ) (df : DataFrame),
      get_all_subjects_statistics df = [] →
      identify_weak_subjects pf sef df = Except.error "KeyError: mean") ∧
    (∀ (pf sef : List ℚ → ℚ) (df : DataFrame),
      dropToplam (get_all_subjects_statistics df) = [] →
      identify_strong_subjects pf sef df = []) := by
  refine ⟨?_, ?_, ?_, ?_, ?_, ?_, ?_, ?_⟩
  · intro df s h
    simp only [calculate_statistics, if_neg h]
  · intro df s h
    simp only [calculate_statistics, h]
    split <;> simp
  · intro pf sef df s h
    simp only [get_progression_trend, if_neg h]
  · intro pf sef df s h
    simp only [get_progression_trend]
    split <;> simp [h]
  · intro df s w h
    simp only [calculate_improvement_rate, if_neg h]
  · intro df s w h
    simp only [calculate_improvement_rate]
    split <;> simp [h]
  · intro pf sef df h
    simp only [identify_weak_subjects, h]
  · intro pf sef df h
    simp only [identify_strong_subjects, h]

/-- C5 amended witness: instantiated on the empty table. -/
theorem analytics_guard_contract_witness :
    calculate_statistics dfEmpty "Toplam Net" = none ∧
    get_progression_trend pfZero seZero dfEmpty "Toplam Net" = none ∧
    calculate_improvement_rate dfEmpty "Toplam Net" 3 = none ∧
    identify_weak_subjects pfZero seZero dfEmpty = Except.error "KeyError: mean" ∧
    identify_strong_subjects pfZero seZero dfEmpty = [] :=
  ⟨analytics_guard_contract.1 dfEmpty "Toplam Net" (by simp [dfEmpty]),
   analytics_guard_contract.2.2.1 pfZero seZero dfEmpty "Toplam Net" (by simp [dfEmpty]),
   analytics_guard_contract.2.2.2.2.1 dfEmpty "Toplam Net" 3 (by simp [dfEmpty]),
   analytics_guard_contract.2.2.2.2.2.2.1 pfZero seZero dfEmpty rfl,
   analytics_guard_contract.2.2.2.2.2.2.2 pfZero seZero dfEmpty rfl⟩

/-! ### C9 -/

instance : IsTotal Row (fun a b : Row => a.tarih ≤ b.tarih) :=
  ⟨fun a b => le_total a.tarih b.tarih⟩

instance : IsTrans Row (fun a b : Row => a.tarih ≤ b.tarih) :=
  ⟨fun _ _ _ hab hbc => le_trans hab hbc⟩

lemma sortRows_reverse {rs : List Row}
    (hd : rs.Pairwise (fun a b => a.tarih ≠ b.tarih)) :
    sortRows rs.reverse = sortRows rs := by
  have hsymm : ∀ {x y : Row}, x.tarih ≠ y.tarih → y.tarih ≠ x.tarih :=
    fun h => Ne.symm h
  have hperm : (sortRows rs.reverse).Perm (sortRows rs) :=
    ((List.perm_insertionSort _ _).trans (List.reverse_perm rs)).trans
      (List.perm_insertionSort _ rs).symm
  have hs1 : (sortRows rs.reverse).Pairwise (fun a b : Row => a.tarih ≤ b.tarih) :=
    List.sorted_insertionSort _ _
  have hs2 : (sortRows rs).Pairwise (fun a b : Row => a.tarih ≤ b.tarih) :=
    List.sorted_insertionSort _ _
  have hne2 : (sortRows rs).Pairwise (fun a b => a.tarih ≠ b.tarih) :=
    (List.Perm.pairwise_iff hsymm (List.perm_insertionSort _ rs)).mpr hd
  have hdrev : rs.reverse.Pairwise (fun a b => a.tarih ≠ b.tarih) := by
    rw [List.pairwise_reverse]
    exact hd.imp (fun h => Ne.symm h)
  have hne1 : (sortRows rs.reverse).Pairwise (fun a b => a.tarih ≠ b.tarih) :=
    (List.Perm.pairwise_iff hsymm (List.perm_insertionSort _ rs.reverse)).mpr hdrev
  have hstrict1 : (sortRows rs.reverse).Pairwise
      (fun a b : Row => a.tarih < b.tarih ∨ a = b) :=
    (hs1.and hne1).imp (fun h => Or.inl (lt_of_le_of_ne h.1 h.2))
  have hstrict2 : (sortRows rs).Pairwise
      (fun a b : Row => a.tarih < b.tarih ∨ a = b) :=
    (hs2.and hne2).imp (fun h => Or.inl (lt_of_le_of_ne h.1 h.2))
  haveI : IsAntisymm Row (fun a b : Row => a.tarih < b.tarih ∨ a = b) := by
    constructor
    rintro a b (h1 | h1) (h2 | h2)
    · exact absurd (lt_trans h1 h2) (lt_irrefl _)
    · exact h2.symm
    · exact h1
    · exact h1
  exact List.eq_of_perm_of_sorted hperm hstrict1 hstrict2

/-- C9: `get_progression_trend` sorts by date before fitting, so feeding
the same rows in reversed order (dates attached to their rows, all dates
distinct as the data model requires) yields the identical result. -/
theorem trend_order_invariance (pf sef : List ℚ → ℚ) (df : DataFrame) (s : String)
    (hd : df.rows.Pairwise (fun a b => a.tarih ≠ b.tarih)) :
    get_progression_trend pf sef (reverseDf df) s =
      get_progression_trend pf sef df s := by
  unfold get_progression_trend sortedDataOf reverseDf
  dsimp only
  rw [sortRows_reverse hd]

/-- C9 witness: instantiated on the concrete two-exam table. -/
theorem trend_order_invariance_witness :
    get_progression_trend pfZero seZero (reverseDf dfC2) "Matematik Net" =
      get_progression_trend pfZero seZero dfC2 "Matematik Net" :=
  trend_order_invariance pfZero seZero dfC2 "Matematik Net" (by decide)

/-! ### C7 -/

lemma sorted_getD_mono {s : List ℚ} (hs : s.Pairwise (fun a b : ℚ => a ≤ b))
    {i j : ℕ} (hij : i ≤ j) (hj : j < s.length) : s.getD i 0 ≤ s.getD j 0 := by
  rcases eq_or_lt_of_le hij with rfl | hlt
  · exact le_refl _
  · have hi : i < s.length := lt_trans hlt hj
    rw [List.getD_eq_getElem s 0 hi, List.getD_eq_getElem s 0 hj]
    exact List.pairwise_iff_get.mp hs ⟨i, hi⟩ ⟨j, hj⟩ hlt

lemma interpAt_le_upper {s : List ℚ} (hs : s.Pairwise (fun a b : ℚ => a ≤ b))
    {x : ℚ} (hx : 0 ≤ x) (hi1 : (Int.floor x).toNat + 1 < s.length) :
    interpAt s x ≤ s.getD ((Int.floor x).toNat + 1) 0 := by
  simp only [interpAt]
  have hfx0 : (0 : ℤ) ≤ Int.floor x := Int.floor_nonneg.mpr hx
  have hcx : (((Int.floor x).toNat : ℕ) : ℚ) = (Int.floor x : ℚ) := by
    exact_mod_cast congrArg (Int.cast : ℤ → ℚ) (Int.toNat_of_nonneg hfx0)
  have hg1 : x - ((Int.floor x).toNat : ℚ) < 1 := by
    rw [hcx]
    have := Int.lt_floor_add_one x
    linarith
  have hab : s.getD (Int.floor x).toNat 0 ≤ s.getD ((Int.floor x).toNat + 1) 0 :=
    sorted_getD_mono hs (Nat.le_succ _) hi1
  have hbdef :
      s.getD ((Int.floor x).toNat + 1) (s.getD (Int.floor x).toNat 0) =
        s.getD ((Int.floor x).toNat + 1) 0 := by
    rw [List.getD_eq_getElem s _ hi1, List.getD_eq_getElem s 0 hi1]
  rw [hbdef]
  nlinarith [mul_nonneg (le_of_lt (sub_pos.mpr hg1))
    (sub_nonneg.mpr hab)]

lemma lower_le_interpAt {s : List ℚ} (hs : s.Pairwise (fun a b : ℚ => a ≤ b))
    {x : ℚ} (hx : 0 ≤ x) (hi : (Int.floor x).toNat < s.length) :
    s.getD (Int.floor x).toNat 0 ≤ interpAt s x := by
  simp only [interpAt]
  have hfx0 : (0 : ℤ) ≤ Int.floor x := Int.floor_nonneg.mpr hx
  have hcx : (((Int.floor x).toNat : ℕ) : ℚ) = (Int.floor x : ℚ) := by
    exact_mod_cast congrArg (Int.cast : ℤ → ℚ) (Int.toNat_of_nonneg hfx0)
  have hg0 : 0 ≤ x - ((Int.floor x).toNat : ℚ) := by
    rw [hcx]
    have := Int.floor_le x
    linarith
  by_cases hi1 : (Int.floor x).toNat + 1 < s.length
  · have hab : s.getD (Int.floor x).toNat 0 ≤ s.getD ((Int.floor x).toNat + 1) 0 :=
      sorted_getD_mono hs (Nat.le_succ _) hi1
    have hbdef :
        s.getD ((Int.floor x).toNat + 1) (s.getD (Int.floor x).toNat 0) =
          s.getD ((Int.floor x).toNat + 1) 0 := by
      rw [List.getD_eq_getElem s _ hi1, List.getD_eq_getElem s 0 hi1]
    rw [hbdef]
    nlinarith [mul_nonneg hg0 (sub_nonneg.mpr hab)]
  · have hbdef :
        s.getD ((Int.floor x).toNat + 1) (s.getD (Int.floor x).toNat 0) =
          s.getD (Int.floor x).toNat 0 :=
      List.getD_eq_default _ _ (by omega)
    rw [hbdef]
    nlinarith [hg0]

lemma interpAt_mono {s : List ℚ} (hs : s.Pairwise (fun a b : ℚ => a ≤ b))
    {x y : ℚ} (hx : 0 ≤ x) (hxy : x ≤ y) (hy : y ≤ (s.length : ℚ) - 1) :
    interpAt s x ≤ interpAt s y := by
  have hy0 : 0 ≤ y := le_trans hx hxy
  have hm1q : (1 : ℚ) ≤ (s.length : ℚ) := by linarith
  have hm1 : 1 ≤ s.length := by exact_mod_cast hm1q
  have hfx0 : (0 : ℤ) ≤ Int.floor x := Int.floor_nonneg.mpr hx
  have hfy0 : (0 : ℤ) ≤ Int.floor y := Int.floor_nonneg.mpr hy0
  have hcx : (((Int.floor x).toNat : ℕ) : ℚ) = (Int.floor x : ℚ) := by
    exact_mod_cast congrArg (Int.cast : ℤ → ℚ) (Int.toNat_of_nonneg hfx0)
  have hcy : (((Int.floor y).toNat : ℕ) : ℚ) = (Int.floor y : ℚ) := by
    exact_mod_cast congrArg (Int.cast : ℤ → ℚ) (Int.toNat_of_nonneg hfy0)
  have hyc : y ≤ (((s.length - 1 : ℕ) : ℚ)) := by
    rw [Nat.cast_sub hm1]
    simpa using hy
  have hfy_le : Int.floor y ≤ (s.length - 1 : ℕ) := by
    have := Int.floor_le_floor hyc
    simpa [Int.floor_natCast] using this
  have hiy_lt : (Int.floor y).toNat < s.length := by
    have := Int.toNat_le_toNat hfy_le
    simp only [Int.toNat_natCast] at this
    omega
  have hix_le : (Int.floor x).toNat ≤ (Int.floor y).toNat :=
    Int.toNat_le_toNat (Int.floor_le_floor hxy)
  rcases eq_or_lt_of_le hix_le with heq | hlt
  · simp only [interpAt]
    rw [← heq]
    have hgxy : x - ((Int.floor x).toNat : ℚ) ≤ y - ((Int.floor x).toNat : ℚ) := by
      linarith
    have hab : s.getD (Int.floor x).toNat 0 ≤
        s.getD ((Int.floor x).toNat + 1) (s.getD (Int.floor x).toNat 0) := by
      by_cases hi1 : (Int.floor x).toNat + 1 < s.length
      · rw [List.getD_eq_getElem s _ hi1]
        have := sorted_getD_mono hs (Nat.le_succ (Int.floor x).toNat) hi1
        rwa [List.getD_eq_getElem s 0 hi1] at this
      · have hdef : s.getD ((Int.floor x).toNat + 1) (s.getD (Int.floor x).toNat 0) =
            s.getD (Int.floor x).toNat 0 :=
          List.getD_eq_default _ _ (by omega)
        rw [hdef]
    nlinarith [mul_le_mul_of_nonneg_right hgxy (sub_nonneg.mpr hab)]
  · have hix1_lt : (Int.floor x).toNat + 1 < s.length := by omega
    have h1 : interpAt s x ≤ s.getD ((Int.floor x).toNat + 1) 0 :=
      interpAt_le_upper hs hx hix1_lt
    have h2 : s.getD ((Int.floor x).toNat + 1) 0 ≤ s.getD (Int.floor y).toNat 0 :=
      sorted_getD_mono hs (by omega) hiy_lt
    have h3 : s.getD (Int.floor y).toNat 0 ≤ interpAt s y :=
      lower_le_interpAt hs hy0 hiy_lt
    linarith

lemma pandasQuantile_mono (l : List ℚ) (hl : l ≠ []) {p q : ℚ}
    (hp : 0 ≤ p) (hpq : p ≤ q) (hq : q ≤ 1) :
    pandasQuantile l p ≤ pandasQuantile l q := by
  unfold pandasQuantile
  have hlen : (List.insertionSort (fun a b : ℚ => a ≤ b) l).length ≠ 0 := by
    rw [List.length_insertionSort]
    simpa using hl
  rw [if_neg hlen, if_neg hlen]
  have hs : (List.insertionSort (fun a b : ℚ => a ≤ b) l).Pairwise
      (fun a b : ℚ => a ≤ b) := List.sorted_insertionSort _ l
  have hm1 : (0 : ℚ) ≤ ((List.insertionSort (fun a b : ℚ => a ≤ b) l).length : ℚ) - 1 := by
    have : 1 ≤ (List.insertionSort (fun a b : ℚ => a ≤ b) l).length := by omega
    have : (1 : ℚ) ≤ ((List.insertionSort (fun a b : ℚ => a ≤ b) l).length : ℚ) := by
      exact_mod_cast this
    linarith
  refine interpAt_mono hs (mul_nonneg hp hm1) ?_ ?_
  · exact mul_le_mul_of_nonneg_right hpq hm1
  · exact mul_le_of_le_one_left hm1 hq

lemma filterMap_tag_names_sublist {β : Type} (g : String → Option β) :
    ∀ l : List String,
      ((l.filterMap (fun c => (g c).map (fun s => (c, s)))).map Prod.fst).Sublist l
  | [] => by simp
  | c :: l => by
    cases hg : g c with
    | none =>
      simp only [List.filterMap_cons, hg, Option.map_none']
      exact (filterMap_tag_names_sublist g l).cons c
    | some st =>
      simp only [List.filterMap_cons, hg, Option.map_some', List.map_cons]
      exact (filterMap_tag_names_sublist g l).cons₂ c

lemma nodup_keys_mem_eq {l : List (String × Stats)}
    (h : (l.map Prod.fst).Nodup) {k : String} {v v' : Stats}
    (h1 : (k, v) ∈ l) (h2 : (k, v') ∈ l) : v = v' := by
  induction l with
  | nil => exact absurd h1 (by simp)
  | cons p rest ih =>
    have hhead : p.1 ∉ rest.map Prod.fst := by
      simp only [List.map_cons, List.nodup_cons] at h
      exact h.1
    have htail : (rest.map Prod.fst).Nodup := by
      simp only [List.map_cons, List.nodup_cons] at h
      exact h.2
    rcases List.mem_cons.mp h1 with hm1 | hm1 <;>
      rcases List.mem_cons.mp h2 with hm2 | hm2
    · have hkv : (k, v) = (k, v') := hm1.trans hm2.symm
      simp only [Prod.mk.injEq, true_and] at hkv
      exact hkv
    · exfalso
      apply hhead
      rw [← hm1]
      exact List.mem_map.mpr ⟨(k, v'), hm2, rfl⟩
    · exfalso
      apply hhead
      rw [← hm2]
      exact List.mem_map.mpr ⟨(k, v), hm1, rfl⟩
    · exact ih htail hm1 hm2

lemma weak_mem {pf sef : List ℚ → ℚ} {df : DataFrame} {ws : List RankEntry}
    (hw : identify_weak_subjects pf sef df = Except.ok ws)
    {a : RankEntry} (ha : a ∈ ws) :
    ∃ e, e ∈ dropToplam (get_all_subjects_statistics df) ∧
      e.2.mean <
        pandasQuantile
          ((dropToplam (get_all_subjects_statistics df)).map (fun x => x.2.mean))
          (1 / 2) ∧
      a.subject = e.1 ∧ a.mean = e.2.mean := by
  simp only [identify_weak_subjects] at hw
  cases hAll : get_all_subjects_statistics df with
  | nil =>
    rw [hAll] at hw
    exact absurd hw (by simp)
  | cons x xs =>
    rw [hAll] at hw
    dsimp only at hw
    cases hDrop : dropToplam (x :: xs) with
    | nil =>
      rw [hDrop] at hw
      dsimp only at hw
      obtain rfl := (Except.ok.inj hw).symm
      exact absurd ha (by simp)
    | cons y ys =>
      rw [hDrop] at hw
      dsimp only at hw
      obtain rfl := (Except.ok.inj hw).symm
      have ha2 := (List.perm_insertionSort
        (fun a b : RankEntry => a.mean ≤ b.mean) _).mem_iff.mp ha
      obtain ⟨e, he, rfl⟩ := List.mem_map.mp ha2
      obtain ⟨hemem, hcond⟩ := List.mem_filter.mp he
      exact ⟨e, hemem, of_decide_eq_true hcond, rfl, rfl⟩

lemma strong_mem {pf sef : List ℚ → ℚ} {df : DataFrame} {b : RankEntry}
    (hb : b ∈ identify_strong_subjects pf sef df) :
    ∃ e, e ∈ dropToplam (get_all_subjects_statistics df) ∧
      pandasQuantile
          ((dropToplam (get_all_subjects_statistics df)).map (fun x => x.2.mean))
          (3 / 4) ≤ e.2.mean ∧
      b.subject = e.1 ∧ b.mean = e.2.mean ∧
      dropToplam (get_all_subjects_statistics df) ≠ [] := by
  simp only [identify_strong_subjects] at hb
  cases hDrop : dropToplam (get_all_subjects_statistics df) with
  | nil =>
    rw [hDrop] at hb
    exact absurd hb (by simp)
  | cons y ys =>
    rw [hDrop] at hb
    dsimp only at hb
    have hb2 := (List.perm_insertionSort
      (fun a b : RankEntry => b.mean ≤ a.mean) _).mem_iff.mp hb
    obtain ⟨e, he, rfl⟩ := List.mem_map.mp hb2
    obtain ⟨hemem, hcond⟩ := List.mem_filter.mp he
    exact ⟨e, hemem, of_decide_eq_true hcond, rfl, rfl, by simp⟩

/-- C7: the weak set (mean strictly below the median of means, aggregate
excluded) and the strong set (mean at or above the 75th percentile of
means) are disjoint — the interpolated quantile is monotone in the
probability, so median ≤ 75th percentile and no mean can be on both
sides. Stated under the claim's side condition and the tables' unique
column names. -/
theorem weak_strong_disjoint (pf sef : List ℚ → ℚ) (df : DataFrame)
    (hnodup : df.cols.Nodup)
    (hside : ∀ e ∈ dropToplam (get_all_subjects_statistics df),
      ¬(e.2.mean =
          pandasQuantile
            ((dropToplam (get_all_subjects_statistics df)).map (fun x => x.2.mean))
            (1 / 2) ∧
        e.2.mean =
          pandasQuantile
            ((dropToplam (get_all_subjects_statistics df)).map (fun x => x.2.mean))
            (3 / 4)))
    (ws : List RankEntry) (hw : identify_weak_subjects pf sef df = Except.ok ws)
    (a : RankEntry) (ha : a ∈ ws) (b : RankEntry)
    (hb : b ∈ identify_strong_subjects pf sef df) :
    a.subject ≠ b.subject := by
  obtain ⟨e, he, hlt, has, -⟩ := weak_mem hw ha
  obtain ⟨f, hf, hge, hbs, -, hne⟩ := strong_mem hb
  obtain ⟨e1, e2⟩ := e
  obtain ⟨f1, f2⟩ := f
  intro hab
  have hnames : ((dropToplam (get_all_subjects_statistics df)).map Prod.fst).Nodup := by
    have h1 : (df.cols.filter (fun c => nameContains c "Net")).Nodup :=
      (List.filter_sublist _).nodup hnodup
    have h2 : ((get_all_subjects_statistics df).map Prod.fst).Nodup :=
      (filterMap_tag_names_sublist (fun c => calculate_statistics df c) _).nodup h1
    exact (List.Sublist.map Prod.fst (List.filter_sublist _)).nodup h2
  have hkey : e1 = f1 := by
    have h1 : a.subject = e1 := has
    have h2 : b.subject = f1 := hbs
    rw [← h1, ← h2, hab]
  have hval : e2 = f2 := nodup_keys_mem_eq hnames he (hkey ▸ hf)
  have hmono :
      pandasQuantile
          ((dropToplam (get_all_subjects_statistics df)).map (fun x => x.2.mean))
          (1 / 2) ≤
        pandasQuantile
          ((dropToplam (get_all_subjects_statistics df)).map (fun x => x.2.mean))
          (3 / 4) := by
    refine pandasQuantile_mono _ ?_ (by norm_num) (by norm_num) (by norm_num)
    intro hmap
    exact hne (List.map_eq_nil.mp hmap)
  rw [hval] at hlt
  linarith

def stA : Stats := ⟨2, 1, 1, some 0, 1, 1, 1, 1, 0, 0, 1, 1⟩

def stB : Stats := ⟨2, 3, 3, some 0, 3, 3, 3, 3, 0, 0, 3, 3⟩

def tA : TrendInfo := ⟨0, 1, 0, 0, 0, "Stable", 1, 0, 0⟩

def tB : TrendInfo := ⟨0, 3, 0, 0, 0, "Stable", 3, 0, 0⟩

lemma dfC7_netcols :
    dfC7.cols.filter (fun c => nameContains c "Net") = ["A Net", "B Net"] := by
  decide

lemma dfC7_statsA : calculate_statistics dfC7 "A Net" = some stA := by
  norm_num +decide [calculate_statistics, dataOf, dfC7, getCell, alookup, List.filterMap_cons,
    Option.join, listMean, pandasQuantile, interpAt, List.insertionSort,
    List.orderedInsert, sampleVar, listMin, listMax, stA]

lemma dfC7_statsB : calculate_statistics dfC7 "B Net" = some stB := by
  norm_num +decide [calculate_statistics, dataOf, dfC7, getCell, alookup, List.filterMap_cons,
    Option.join, listMean, pandasQuantile, interpAt, List.insertionSort,
    List.orderedInsert, sampleVar, listMin, listMax, stB]

lemma dfC7_allstats :
    get_all_subjects_statistics dfC7 = [("A Net", stA), ("B Net", stB)] := by
  simp only [get_all_subjects_statistics, dfC7_netcols]
  norm_num +decide [List.filterMap_cons, dfC7_statsA, dfC7_statsB]

lemma dfC7_trendA : get_progression_trend pfZero seZero dfC7 "A Net" = some tA := by
  norm_num +decide [get_progression_trend, sortedDataOf, dfC7, sortRows, List.insertionSort,
    List.orderedInsert, getCell, alookup, List.filterMap_cons, Option.join,
    olsSlope, olsIntercept, olsRSquared, olsXs, List.range_succ, trendLabel,
    Config.Analysis.TREND_P_VALUE_THRESHOLD, Config.Analysis.TREND_STRONG_SLOPE,
    Config.Analysis.TREND_LIGHT_SLOPE, pfZero, seZero, tA]

lemma dfC7_trendB : get_progression_trend pfZero seZero dfC7 "B Net" = some tB := by
  norm_num +decide [get_progression_trend, sortedDataOf, dfC7, sortRows, List.insertionSort,
    List.orderedInsert, getCell, alookup, List.filterMap_cons, Option.join,
    olsSlope, olsIntercept, olsRSquared, olsXs, List.range_succ, trendLabel,
    Config.Analysis.TREND_P_VALUE_THRESHOLD, Config.Analysis.TREND_STRONG_SLOPE,
    Config.Analysis.TREND_LIGHT_SLOPE, pfZero, seZero, tB]

lemma dfC7_alltrends :
    get_all_subjects_trends pfZero seZero dfC7 = [("A Net", tA), ("B Net", tB)] := by
  simp only [get_all_subjects_trends, dfC7_netcols]
  norm_num +decide [List.filterMap_cons, dfC7_trendA, dfC7_trendB]

lemma dfC7_dropped :
    dropToplam (get_all_subjects_statistics dfC7) = [("A Net", stA), ("B Net", stB)] := by
  rw [dfC7_allstats]
  norm_num +decide [dropToplam, List.filter_cons]

lemma dfC7_weak_eval :
    identify_weak_subjects pfZero seZero dfC7 =
      Except.ok [⟨"A Net", 1, 1, "Stable"⟩] := by
  simp only [identify_weak_subjects, dfC7_allstats, dfC7_alltrends]
  norm_num +decide [dropToplam, List.filter_cons, pandasQuantile, interpAt,
    List.insertionSort, List.orderedInsert, mkRankEntry, trendOfSubject, alookup,
    stA, stB, tA, tB]

lemma dfC7_strong_eval :
    identify_strong_subjects pfZero seZero dfC7 = [⟨"B Net", 3, 3, "Stable"⟩] := by
  simp only [identify_strong_subjects, dfC7_allstats, dfC7_alltrends]
  norm_num +decide [dropToplam, List.filter_cons, pandasQuantile, interpAt,
    List.insertionSort, List.orderedInsert, mkRankEntry, trendOfSubject, alookup,
    stA, stB, tA, tB]

/-- C7 witness: on the two-subject table the weak entry is `A Net`, the
strong entry is `B Net`, and the theorem yields their disjointness. -/
theorem weak_strong_disjoint_witness :
    (⟨"A Net", 1, 1, "Stable"⟩ : RankEntry).subject ≠
      (⟨"B Net", 3, 3, "Stable"⟩ : RankEntry).subject := by
  refine weak_strong_disjoint pfZero seZero dfC7 (by decide) ?_ _ dfC7_weak_eval
    _ (by simp) _ (by simp [dfC7_strong_eval])
  intro e he
  rw [dfC7_dropped] at he
  rw [dfC7_dropped]
  rcases List.mem_cons.mp he with rfl | he2
  · norm_num +decide [stA, stB, pandasQuantile, interpAt, List.insertionSort,
      List.orderedInsert]
  · rcases List.mem_cons.mp he2 with rfl | he3
    · norm_num +decide [stA, stB, pandasQuantile, interpAt, List.insertionSort,
        List.orderedInsert]
    · exact absurd he3 (by simp)

/-! ### C4 -/

def countOf : List (String × ℕ) → String → ℕ
  | [], _ => 0
  | (t0, c0) :: rest, t => if t0 = t then c0 else countOf rest t

lemma countOf_topicCountAdd :
    ∀ (l : List (String × ℕ)) (t : String) (c : ℕ) (u : String),
      countOf (topicCountAdd l t c) u = countOf l u + (if t = u then c else 0)
  | [], t, c, u => by
    by_cases h : t = u <;> simp [topicCountAdd, countOf, h]
  | (t0, c0) :: rest, t, c, u => by
    by_cases h0 : t0 = t
    · subst h0
      simp only [topicCountAdd, if_pos rfl]
      by_cases h1 : t0 = u
      · subst h1
        simp [countOf]
      · simp [countOf, h1]
    · simp only [topicCountAdd, if_neg h0]
      by_cases h1 : t0 = u
      · subst h1
        have ht : ¬t = t0 := fun h => h0 h.symm
        simp [countOf, ht]
      · simp [countOf, h1, countOf_topicCountAdd rest t c u]

lemma keys_topicCountAdd :
    ∀ (l : List (String × ℕ)) (t : String) (c : ℕ),
      (topicCountAdd l t c).map Prod.fst =
        if t ∈ l.map Prod.fst then l.map Prod.fst else l.map Prod.fst ++ [t]
  | [], t, _ => by simp [topicCountAdd]
  | (t0, c0) :: rest, t, c => by
    by_cases h0 : t0 = t
    · subst h0
      simp [topicCountAdd]
    · have hmem : (t ∈ t0 :: rest.map Prod.fst) ↔ t ∈ rest.map Prod.fst := by
        constructor
        · intro h
          rcases List.mem_cons.mp h with h | h
          · exact absurd h.symm h0
          · exact h
        · exact fun h => List.mem_cons_of_mem _ h
      simp only [topicCountAdd, if_neg h0, List.map_cons, keys_topicCountAdd rest t c]
      by_cases hm : t ∈ rest.map Prod.fst
      · rw [if_pos hm, if_pos (hmem.mpr hm)]
      · rw [if_neg hm, if_neg (fun h => hm (hmem.mp h))]
        simp

lemma nodup_keys_topicCountAdd {l : List (String × ℕ)} {t : String} {c : ℕ}
    (h : (l.map Prod.fst).Nodup) :
    ((topicCountAdd l t c).map Prod.fst).Nodup := by
  rw [keys_topicCountAdd]
  split
  · exact h
  next hm => simp [List.nodup_append, h, hm]

lemma countOf_of_mem :
    ∀ {l : List (String × ℕ)}, (l.map Prod.fst).Nodup →
      ∀ {t : String} {c : ℕ}, (t, c) ∈ l → countOf l t = c
  | [], _, t, c, h => absurd h (by simp)
  | (p1, p2) :: rest, h, t, c, hm => by
    have hhead : p1 ∉ rest.map Prod.fst := by
      simp only [List.map_cons, List.nodup_cons] at h
      exact h.1
    have htail : (rest.map Prod.fst).Nodup := by
      simp only [List.map_cons, List.nodup_cons] at h
      exact h.2
    rcases List.mem_cons.mp hm with hm1 | hm1
    · simp only [Prod.mk.injEq] at hm1
      obtain ⟨rfl, rfl⟩ := hm1
      simp [countOf]
    · have hne : ¬p1 = t := by
        intro hpt
        exact hhead (hpt ▸ List.mem_map.mpr ⟨(t, c), hm1, rfl⟩)
      simp only [countOf, if_neg hne]
      exact countOf_of_mem htail hm1

lemma totalTopicCount_cons (ke : (String × String) × TopicEntry) (rest : Index)
    (t : String) :
    totalTopicCount (ke :: rest) t =
      (if ke.1.2 = t then ke.2.appearances.sum else 0) + totalTopicCount rest t := by
  by_cases h : ke.1.2 = t <;> simp [totalTopicCount, List.filter_cons, h]

lemma loop_countOf :
    ∀ (idx : Index) (acc : List (String × ℕ) × List (String × String)) (t : String),
      countOf (idx.foldl allTopicsStep acc).1 t = countOf acc.1 t + totalTopicCount idx t
  | [], acc, t => by simp [totalTopicCount]
  | ke :: rest, acc, t => by
    rw [List.foldl_cons, loop_countOf rest _ t, totalTopicCount_cons]
    unfold allTopicsStep
    by_cases hc : 0 < ke.2.appearances.sum
    · rw [if_pos hc]
      dsimp only
      rw [countOf_topicCountAdd]
      by_cases ht : ke.1.2 = t <;> simp [ht] <;> omega
    · rw [if_neg hc]
      have h0 : ke.2.appearances.sum = 0 := by omega
      simp [h0]

lemma loop_nodup_keys (idx : Index) :
    ∀ (acc : List (String × ℕ) × List (String × String)),
      (acc.1.map Prod.fst).Nodup → ((idx.foldl allTopicsStep acc).1.map Prod.fst).Nodup := by
  intro acc hacc
  refine @foldl_preserves ((String × String) × TopicEntry)
    (List (String × ℕ) × List (String × String))
    (fun acc => (acc.1.map Prod.fst).Nodup) allTopicsStep ?_ idx acc hacc
  intro b a hb
  simp only [allTopicsStep]
  split
  · exact nodup_keys_topicCountAdd hb
  · exact hb

lemma allTopics_val {idx : Index} {t : String} {c : ℕ}
    (hm : (t, c) ∈ (buildAllTopics idx).1) : c = totalTopicCount idx t := by
  have hnodup : ((buildAllTopics idx).1.map Prod.fst).Nodup :=
    loop_nodup_keys idx ([], []) (by simp)
  have h1 : countOf (buildAllTopics idx).1 t = c := countOf_of_mem hnodup hm
  have h2 : countOf (buildAllTopics idx).1 t = totalTopicCount idx t := by
    have := loop_countOf idx ([], []) t
    simpa [countOf] using this
  omega

lemma planLoop_length {trends : Index} {subject : String} {maxT : ℕ} :
    ∀ (l : List (String × ℕ)) (i : ℕ) (acc : List PlanItem),
      acc.length ≤ maxT → (planLoop trends subject maxT l i acc).length ≤ maxT
  | [], _, _, h => h
  | (topic, freq) :: rest, i, acc, h => by
    simp only [planLoop]
    by_cases hlen : maxT ≤ acc.length
    · rw [if_pos hlen]
      exact h
    · rw [if_neg hlen]
      refine planLoop_length rest (i + 1) _ ?_
      simp only [List.length_append, List.length_cons, List.length_nil]
      omega

lemma planLoop_mem {trends : Index} {subject : String} {maxT : ℕ} :
    ∀ (l : List (String × ℕ)) (i : ℕ) (acc : List PlanItem) (it : PlanItem),
      it ∈ planLoop trends subject maxT l i acc →
      it ∈ acc ∨ ∃ p, p ∈ l ∧ it.konu = p.1 ∧ it.frekans = p.2
  | [], _, _, _, h => Or.inl h
  | (topic, freq) :: rest, i, acc, it, h => by
    simp only [planLoop] at h
    by_cases hlen : maxT ≤ acc.length
    · rw [if_pos hlen] at h
      exact Or.inl h
    · rw [if_neg hlen] at h
      rcases planLoop_mem rest (i + 1) _ it h with hacc | ⟨p, hp, h1, h2⟩
      · rcases List.mem_append.mp hacc with hl | hr
        · exact Or.inl hl
        · refine Or.inr ⟨(topic, freq), List.mem_cons_self _ _, ?_, ?_⟩
          · rw [List.mem_singleton.mp hr]
          · rw [List.mem_singleton.mp hr]
      · exact Or.inr ⟨p, List.mem_cons_of_mem _ hp, h1, h2⟩

lemma resortPlan_length (items : List PlanItem) :
    (resortPlan items).length = items.length := by
  simp [resortPlan, List.enum_length,
    (List.perm_insertionSort planLe items).length_eq]

lemma resortPlan_mem {items : List PlanItem} {it : PlanItem}
    (h : it ∈ resortPlan items) :
    ∃ it0, it0 ∈ items ∧ it.konu = it0.konu ∧ it.frekans = it0.frekans := by
  unfold resortPlan at h
  obtain ⟨p, hp, rfl⟩ := List.mem_map.mp h
  have hsnd : p.2 ∈ List.insertionSort planLe items := by
    have hmap := List.mem_map_of_mem Prod.snd hp
    rwa [List.enum_map_snd] at hmap
  exact ⟨p.2, (List.perm_insertionSort planLe items).mem_iff.mp hsnd, rfl, rfl⟩

lemma alookup_updateAssoc :
    ∀ (l : List (String × List PlanItem)) (s : String) (its : List PlanItem)
      (u : String),
      alookup (updateAssoc l s its) u = if s = u then some its else alookup l u
  | [], s, its, u => by
    by_cases h : s = u <;> simp [updateAssoc, alookup, h]
  | (k, v) :: rest, s, its, u => by
    by_cases hk : k = s
    · subst hk
      by_cases hu : k = u <;> simp [updateAssoc, alookup, hu]
    · by_cases hu : k = u
      · subst hu
        have hsu : ¬s = k := fun h => hk h.symm
        simp [updateAssoc, alookup, hk, hsu]
      · simp [updateAssoc, alookup, hk, hu, alookup_updateAssoc rest s its u]

lemma planStep_lookup {trends : Index} {maxT : ℕ} {st : List (String × ℕ)}
    {so : List (String × String)} (Q : List PlanItem → Prop)
    (hv : ∀ subject,
      Q (resortPlan (planLoop trends subject maxT
        (st.filter (fun p => decide (alookup so p.1 = some subject))) 0 [])))
    {plan : List (String × List PlanItem)} {subject : String}
    (hplan : ∀ s its, alookup plan s = some its → Q its) :
    ∀ s its, alookup (planStep trends maxT st so plan subject) s = some its →
      Q its := by
  intro s its h
  simp only [planStep] at h
  split at h
  · exact hplan s its h
  · rw [alookup_updateAssoc] at h
    split at h
    · obtain rfl := Option.some.inj h
      exact hv subject
    · exact hplan s its h

lemma planStep_fold_lookup {trends : Index} {maxT : ℕ} {st : List (String × ℕ)}
    {so : List (String × String)} {Q : List PlanItem → Prop}
    (hv : ∀ subject,
      Q (resortPlan (planLoop trends subject maxT
        (st.filter (fun p => decide (alookup so p.1 = some subject))) 0 [])))
    {subjects : List String} {plan : List (String × List PlanItem)}
    (hplan : ∀ s its, alookup plan s = some its → Q its) :
    ∀ s its, alookup (subjects.foldl (planStep trends maxT st so) plan) s = some its →
      Q its :=
  @foldl_preserves String (List (String × List PlanItem))
    (fun plan => ∀ s its, alookup plan s = some its → Q its)
    (planStep trends maxT st so)
    (fun b a hb => planStep_lookup Q hv hb) subjects plan hplan

lemma dfC4_plan_eval :
    generate_study_plan [] dfC4 (precompute_all_topic_trends dfC4)
        (some ["A", "B"]) 3 =
      [("B", [⟨"X", "🔴 Yüksek", 3, trendSabit, 1⟩])] := by
  have hidx : precompute_all_topic_trends dfC4 =
      [(("A", "X"), ⟨[1, 0], [1, 2], ["E1", "E2"]⟩),
       (("B", "X"), ⟨[1, 1], [1, 2], ["E1", "E2"]⟩)] := by decide
  have htrend : codeTopicTrend [1, 1] = trendSabit := by
    norm_num [codeTopicTrend, occIndices, List.enum, List.enumFrom, meanDiff,
      trendSabit]
  rw [hidx]
  simp only [generate_study_plan, buildAllTopics, List.foldl_cons, List.foldl_nil,
    allTopicsStep, topicCountAdd, subjectOfSet]
  norm_num +decide [planStep, planLoop, List.insertionSort, List.orderedInsert,
    alookup, List.filter_cons, get_topic_trend_by_exam, lookupIdx, occIndices,
    List.enum, List.enumFrom, recentStatusOf, htrend, resortPlan, updateAssoc,
    priorityOf]

/-- C4 counterexample: the topic `X` is missed under subject `A` once
and under subject `B` twice; `all_topics` aggregates by topic name
alone, so the plan entry emitted under `B` carries frequency 3 while the
`(B, X)` presence vector sums to 2. -/
theorem study_plan_frequency_counterexample :
    generate_study_plan [] dfC4 (precompute_all_topic_trends dfC4)
        (some ["A", "B"]) 3 =
      [("B", [⟨"X", "🔴 Yüksek", 3, trendSabit, 1⟩])] ∧
    lookupIdx (precompute_all_topic_trends dfC4) ("B", "X") =
      some ⟨[1, 1], [1, 2], ["E1", "E2"]⟩ ∧
    ([1, 1] : List ℕ).sum = 2 ∧ (3 : ℕ) ≠ 2 :=
  ⟨dfC4_plan_eval, by decide, by decide, by decide⟩

/-- C4 amended: the plan never stores more than `max_topics_per_subject`
items per subject, and an emitted item's frequency equals the total
occurrence count of its topic name summed over all `(subject, topic)`
keys of the index (equal to its own presence-vector sum only when the
topic name belongs to a single subject); with no occurrences at all, the
placeholder "nothing urgent" plan is returned. -/
theorem generate_study_plan_amended (cs : List String) (df : DataFrame)
    (idx : Index) (focus : Option (List String)) (maxT : ℕ) :
    ((buildAllTopics idx).1 = [] →
      generate_study_plan cs df idx focus maxT = planPlaceholder) ∧
    ((buildAllTopics idx).1 ≠ [] →
      ∀ s its, alookup (generate_study_plan cs df idx focus maxT) s = some its →
        its.length ≤ maxT ∧ ∀ it, it ∈ its → it.frekans = totalTopicCount idx it.konu) := by
  constructor
  · intro h
    simp [generate_study_plan, h]
  · intro hne s its h
    simp only [generate_study_plan] at h
    cases hAll : (buildAllTopics idx).1 with
    | nil => exact absurd hAll hne
    | cons x xs =>
      rw [hAll] at h
      revert h
      refine @planStep_fold_lookup idx maxT
        (List.insertionSort (fun a b : String × ℕ => b.2 ≤ a.2) (x :: xs))
        (buildAllTopics idx).2
        (fun its => its.length ≤ maxT ∧
          ∀ it, it ∈ its → it.frekans = totalTopicCount idx it.konu)
        ?_ _ [] ?_ s its
      · intro subject
        constructor
        · rw [resortPlan_length]
          exact planLoop_length _ 0 [] (Nat.zero_le _)
        · intro it hit
          obtain ⟨it0, hit0, hkonu, hfrek⟩ := resortPlan_mem hit
          rcases planLoop_mem _ 0 [] it0 hit0 with habs | ⟨p, hp, h1, h2⟩
          · exact absurd habs (by simp)
          · have hp2 : p ∈ List.insertionSort (fun a b : String × ℕ => b.2 ≤ a.2)
                (x :: xs) := (List.mem_filter.mp hp).1
            have hp3 : p ∈ (buildAllTopics idx).1 := by
              rw [hAll]
              exact (List.perm_insertionSort _ _).mem_iff.mp hp2
            have hval : p.2 = totalTopicCount idx p.1 := by
              obtain ⟨p1, p2⟩ := p
              exact allTopics_val hp3
            rw [hfrek, hkonu, h2, h1, hval]
      · intro s0 its0 h0
        exact absurd h0 (by simp [alookup])

/-- C4 amended witness: instantiated on the shared-topic fixture; the
emitted item under `B` has frequency 3, the total for topic `X` across
both subjects. -/
theorem generate_study_plan_amended_witness :
    ([⟨"X", "🔴 Yüksek", 3, trendSabit, 1⟩] : List PlanItem).length ≤ 3 ∧
    ∀ it, it ∈ ([⟨"X", "🔴 Yüksek", 3, trendSabit, 1⟩] : List PlanItem) →
      it.frekans = totalTopicCount (precompute_all_topic_trends dfC4) it.konu := by
  refine (generate_study_plan_amended [] dfC4 (precompute_all_topic_trends dfC4)
      (some ["A", "B"]) 3).2 (by decide) "B" _ ?_
  rw [dfC4_plan_eval]
  simp [alookup]

end YKS
